import Mathlib

/-
Verification of the kali-web security-tool orchestration backend.

This file gives a shallow embedding, in Lean 4, of the parts of the
backend that the specification's testable claims are about:

  * the job executor (backend/app/services/tool_executor.py),
  * the job action endpoint (backend/app/api/v1/jobs.py),
  * the workflow context (backend/app/workflow/context.py),
  * the workflow engine and node handlers
    (backend/app/workflow/engine.py, backend/app/workflow/nodes.py),
  * the nuclei output decoding (backend/app/tools/parsers/nuclei_parser.py),
  * the asset upsert logic (backend/app/tools/parsers/base.py),
  * the CVSS severity table (backend/app/tools/parsers/nmap_parser.py),
  * the encryption service (backend/app/services/encryption.py).

Conventions used throughout:
  * Python dicts are modelled as association lists with unique keys;
    dict update replaces the first binding with that key.
  * Python None is a value (PyVal.vnone); lookups that miss produce it.
  * Wall-clock timestamps are modelled as booleans recording whether the
    field was assigned (for example completed_at_set).
  * Machine floats appear only in the CVSS cut-off comparison, which uses
    no arithmetic; rationals model them exactly there.
  * External collaborators (the Fernet cipher, the Python json and
    urllib.parse standard libraries) are not repository code; they are
    modelled either as explicit parameters with stated properties or as
    small executable models restricted to the inputs exercised here, as
    noted on each definition.
-/

namespace KaliWeb

/-! ### String primitives

The Python string operations the code relies on (strip, split, find,
slicing, lower) are defined here over the character list of the string by
structural recursion, so that every theorem below can be checked by
evaluation inside the kernel.  Each definition notes the Python operation
it models. -/

/-- Whether the first list is a prefix of the second, by characters. -/
def startsWithChars : List Char → List Char → Bool
  | [], _ => true
  | _ :: _, [] => false
  | a :: as, b :: bs => a == b && startsWithChars as bs

/-- The text before the first occurrence of the separator and the text
after it, none when the separator does not occur.  Callers never pass an
empty separator. -/
def breakOnChars (sep : List Char) (cs : List Char) : Option (List Char × List Char) :=
  if startsWithChars sep cs then some ([], cs.drop sep.length)
  else
    match cs with
    | [] => none
    | c :: rest => (breakOnChars sep rest).map (fun p => (c :: p.1, p.2))

/-- Repeated splitting at the separator; fuel bounds the recursion and
never runs out when it starts above the length of the input. -/
def splitOnCharsAux (sep : List Char) : Nat → List Char → List (List Char)
  | 0, cs => [cs]
  | fuel + 1, cs =>
    match breakOnChars sep cs with
    | none => [cs]
    | some (pre, post) => pre :: splitOnCharsAux sep fuel post

/-- Models Python str.split with a nonempty separator: the fragments
between the non-overlapping occurrences of the separator, scanned left to
right. -/
def strSplitOn (s sep : String) : List String :=
  (splitOnCharsAux sep.data (s.data.length + 1) s.data).map String.mk

/-- Models Python str.strip(): whitespace removed from both ends. -/
def strTrim (s : String) : String :=
  String.mk (((s.data.dropWhile Char.isWhitespace).reverse.dropWhile
    Char.isWhitespace).reverse)

/-- Models Python str.startswith. -/
def strStartsWith (s p : String) : Bool := startsWithChars p.data s.data

/-- Models Python str.endswith. -/
def strEndsWith (s p : String) : Bool := startsWithChars p.data.reverse s.data.reverse

/-- The character length of a string (Python len on the strings used
here). -/
def strLen (s : String) : Nat := s.data.length

/-- The string without its first n characters. -/
def strDropN (s : String) (n : Nat) : String := String.mk (s.data.drop n)

/-- The string without its last n characters. -/
def strDropRightN (s : String) (n : Nat) : String :=
  String.mk (s.data.take (s.data.length - n))

/-- The first n characters of a string (Python slicing up to n). -/
def strTakeN (s : String) (n : Nat) : String := String.mk (s.data.take n)

/-- The longest prefix of characters satisfying the predicate. -/
def strTakeWhileF (s : String) (p : Char → Bool) : String :=
  String.mk (s.data.takeWhile p)

/-- Whether the string is empty. -/
def strIsEmpty (s : String) : Bool := s.data.isEmpty

/-- Whether every character satisfies the predicate. -/
def strAllF (s : String) (p : Char → Bool) : Bool := s.data.all p

/-- Models Python str.lower over ASCII. -/
def strToLower (s : String) : String := String.mk (s.data.map Char.toLower)

/-- The numeric value of a digit string. -/
def digitsToNat (cs : List Char) : Nat :=
  cs.foldl (fun acc c => acc * 10 + (c.toNat - ('0').toNat)) 0

/-- The strings joined with the separator between them. -/
def intercalateChars (sep : List Char) : List (List Char) → List Char
  | [] => []
  | [x] => x
  | x :: xs => x ++ sep ++ intercalateChars sep xs

/-- Models str.flatten of a separator over fragments. -/
def strIntercalate (sep : String) (xs : List String) : String :=
  String.mk (intercalateChars sep.data (xs.map String.data))

/-! ### Job model (backend/app/models/job.py) -/

/-- Job status enumeration, from JobStatus in app/models/job.py. -/
inductive JobStatus where
  | pending
  | queued
  | running
  | completed
  | failed
  | cancelled
  | timeout
deriving DecidableEq, BEq, Repr

/-- String form of a job status, as stored and emitted by the code
(the .value attribute of the Python enum). -/
def JobStatus.str : JobStatus → String
  | .pending => "pending"
  | .queued => "queued"
  | .running => "running"
  | .completed => "completed"
  | .failed => "failed"
  | .cancelled => "cancelled"
  | .timeout => "timeout"

/-- The fields of a Job row that the claims are about.  Timestamps are
modelled as booleans recording whether the column was assigned. -/
structure JobRec where
  project_id : Nat
  tool_name : String
  parameters : List (String × String)
  command : Option String
  priority : Int
  timeout_seconds : Nat
  created_by : Option Nat
  status : JobStatus
  exit_code : Option Int
  error_message : Option String
  started_at_set : Bool
  completed_at_set : Bool
deriving DecidableEq, Repr

/-- A terminal status, per the spec state machine (completed, failed,
timeout, cancelled). -/
def is_terminal (s : JobStatus) : Bool :=
  [JobStatus.completed, JobStatus.failed, JobStatus.timeout, JobStatus.cancelled].contains s

/-! ### Job executor (backend/app/services/tool_executor.py) -/

/-- Outcome of ToolRunner.run as observed by execute_tool_async: a normal
return with an exit code, an asyncio.TimeoutError raised on deadline, or
any other exception with its text. -/
inductive RunnerOutcome where
  | normal (exit_code : Int)
  | timeoutErr
  | exc (msg : String)
deriving DecidableEq, Repr

/-- Effects of one run of execute_tool_async: the final job row, whether a
parse task was enqueued, and the status events emitted on the bus. -/
structure ExecEffects where
  job : JobRec
  parse_enqueued : Bool
  emitted : List String
deriving DecidableEq, Repr

/-- Shallow embedding of execute_tool_async (tool_executor.py lines 26-138)
for a job that was found in the database.  tool_found models a successful
get_tool lookup; hasParser models truthiness of tool.output.parser.
Note that the function never inspects the prior job status, and that on
asyncio.TimeoutError it assigns JobStatus.FAILED (line 124) while emitting
the string "timeout" on the event bus (line 128). -/
def execute_tool_async (j : JobRec) (tool_found : Bool) (hasParser : Bool)
    (outcome : RunnerOutcome) : ExecEffects :=
  if tool_found = false then
    let jf := { j with
      status := JobStatus.failed
      error_message := some ("Tool '" ++ j.tool_name ++ "' not found")
      completed_at_set := true }
    { job := jf, parse_enqueued := false, emitted := [] }
  else
    let j1 := { j with status := JobStatus.running, started_at_set := true }
    match outcome with
    | RunnerOutcome.normal e =>
        let j2 := { j1 with
          exit_code := some e
          completed_at_set := true
          status := if e = 0 then JobStatus.completed else JobStatus.failed
          error_message := if e = 0 then j1.error_message
                           else some ("Tool exited with code " ++ toString e) }
        { job := j2
          parse_enqueued := decide (e = 0) && hasParser
          emitted := ["running", j2.status.str] }
    | RunnerOutcome.timeoutErr =>
        let j2 := { j1 with
          status := JobStatus.failed
          error_message := some ("Execution timed out after "
            ++ toString j.timeout_seconds ++ " seconds")
          completed_at_set := true }
        { job := j2, parse_enqueued := false, emitted := ["running", "timeout"] }
    | RunnerOutcome.exc m =>
        let j2 := { j1 with
          status := JobStatus.failed
          error_message := some m
          completed_at_set := true }
        { job := j2, parse_enqueued := false, emitted := ["running", "failed"] }

/-! ### Job actions (backend/app/api/v1/jobs.py lines 332-387) and
cancel_job_async (tool_executor.py lines 197-214) -/

/-- HTTP-level result of a job action. -/
inductive ActionResult where
  | ok (msg : String)
  | bad_request (msg : String)
deriving DecidableEq, Repr

/-- Effects of a job action: the (possibly updated) original job, the new
job created by a retry if any, and the response. -/
structure JobActionEffects where
  job : JobRec
  new_job : Option JobRec
  result : ActionResult
deriving DecidableEq, Repr

/-- Shallow embedding of the cancel branch of job_action
(jobs.py lines 346-358): allowed only on pending, queued or running jobs;
sets status cancelled and completed_at.  The background cancel_job_async
task it spawns is modelled separately. -/
def job_action_cancel (j : JobRec) : JobActionEffects :=
  if [JobStatus.pending, JobStatus.queued, JobStatus.running].contains j.status then
    { job := { j with status := JobStatus.cancelled, completed_at_set := true }
      new_job := none
      result := ActionResult.ok "Job cancelled" }
  else
    { job := j, new_job := none
      result := ActionResult.bad_request "Cannot cancel job in current state" }

/-- Shallow embedding of the retry branch of job_action
(jobs.py lines 360-384): allowed only on failed, cancelled or timeout jobs;
creates a new queued job with the same configuration fields and leaves the
original untouched. -/
def job_action_retry (j : JobRec) (user_id : Option Nat) : JobActionEffects :=
  if [JobStatus.failed, JobStatus.cancelled, JobStatus.timeout].contains j.status then
    { job := j
      new_job := some
        { project_id := j.project_id
          tool_name := j.tool_name
          parameters := j.parameters
          command := j.command
          priority := j.priority
          timeout_seconds := j.timeout_seconds
          created_by := user_id
          status := JobStatus.queued
          exit_code := none
          error_message := none
          started_at_set := false
          completed_at_set := false }
      result := ActionResult.ok "Job retried" }
  else
    { job := j, new_job := none
      result := ActionResult.bad_request "Cannot retry job in current state" }

/-- Shallow embedding of cancel_job_async (tool_executor.py lines 197-214):
acts only when the job is running; otherwise returns an error leaving the
job unchanged.  The boolean reports success. -/
def cancel_job_async (j : JobRec) : JobRec × Bool :=
  if j.status = JobStatus.running then
    ({ j with status := JobStatus.cancelled, completed_at_set := true }, true)
  else
    (j, false)

/-- A concrete queued job used to evaluate the models on explicit inputs. -/
def sampleJob : JobRec :=
  { project_id := 1
    tool_name := "nmap"
    parameters := [("target", "10.0.0.1")]
    command := some "nmap -sV 10.0.0.1"
    priority := 5
    timeout_seconds := 3600
    created_by := some 1
    status := JobStatus.queued
    exit_code := none
    error_message := none
    started_at_set := false
    completed_at_set := false }

/-! ### CVSS severity table (backend/app/tools/parsers/nmap_parser.py) -/

/-- Modelled from the spec: vulnerability severity levels.  The source file
app/models/vulnerability.py is referenced throughout the code base but is
not present under src/; spec section 3 fixes severity to
info, low, medium, high, critical, which the parser severity maps in
src (for example SEVERITY_MAP in nuclei_parser.py) corroborate. -/
inductive VulnerabilitySeverity where
  | info
  | low
  | medium
  | high
  | critical
deriving DecidableEq, Repr

/-- String value of a severity level (the .value attribute). -/
def VulnerabilitySeverity.value : VulnerabilitySeverity → String
  | .info => "info"
  | .low => "low"
  | .medium => "medium"
  | .high => "high"
  | .critical => "critical"

/-- Shallow embedding of NmapParser._cvss_to_severity
(nmap_parser.py lines 467-478).  The Python argument is a float; the
function only compares it against the exactly representable constants
9.0, 7.0, 4.0 and 0, so rationals model the float comparisons exactly. -/
def cvss_to_severity (cvss : ℚ) : String :=
  if cvss ≥ 9 then VulnerabilitySeverity.critical.value
  else if cvss ≥ 7 then VulnerabilitySeverity.high.value
  else if cvss ≥ 4 then VulnerabilitySeverity.medium.value
  else if cvss > 0 then VulnerabilitySeverity.low.value
  else VulnerabilitySeverity.info.value

/-- The cut-off table exactly as the claim states it, with two-sided
interval bounds (refinement target for C9; written from the claim text,
not from the source). -/
def severity_cutoff_claim (s : ℚ) : String :=
  if s ≥ 9 then "critical"
  else if 7 ≤ s ∧ s < 9 then "high"
  else if 4 ≤ s ∧ s < 7 then "medium"
  else if 0 < s ∧ s < 4 then "low"
  else "info"

/-! ### Encryption service (backend/app/services/encryption.py) and the
credential upsert plaintext field (backend/app/tools/parsers/base.py) -/

/-- Interface of the Fernet cipher consumed by EncryptionService.  Fernet
is the external cryptography library, not repository code; the service is
verified for any implementation of this interface with the stated
round-trip properties. -/
structure FernetLike where
  encrypt_raw : String → String
  decrypt_raw : String → String

/-- Shallow embedding of EncryptionService.encrypt
(encryption.py lines 64-85): the empty string short-circuits before the
cipher is invoked. -/
def encrypt_service (f : FernetLike) (plaintext : String) : String :=
  if plaintext = "" then "" else f.encrypt_raw plaintext

/-- Shallow embedding of EncryptionService.decrypt
(encryption.py lines 87-111): the empty string short-circuits before the
cipher is invoked. -/
def decrypt_service (f : FernetLike) (ciphertext : String) : String :=
  if ciphertext = "" then "" else f.decrypt_raw ciphertext

/-- The plaintext_encrypted value computed by BaseParser._upsert_credential
when inserting a new credential (base.py line 406):
encrypt_sensitive_data(password) if password else None.  Both None and the
empty string are falsy in Python. -/
def upsert_credential_plaintext (f : FernetLike) (password : Option String) :
    Option String :=
  match password with
  | some p => if p = "" then none else some (encrypt_service f p)
  | none => none

/-- A concrete invertible cipher used to evaluate the encryption model on
explicit inputs: it prepends one marker character. -/
def fernetModel : FernetLike :=
  { encrypt_raw := fun s => String.mk ('E' :: s.data)
    decrypt_raw := fun s => String.mk (s.data.drop 1) }

/-! ### Python values

Workflow context entries, node data and JSON findings are dynamically
typed Python values.  They are modelled as a discriminated tree; dicts are
association lists with unique keys in insertion order. -/

/-- A Python value as it occurs in workflow contexts, node data and parsed
JSON.  Floats carry an exact rational; all float uses in the modelled code
are comparisons and truthiness, which rationals model exactly. -/
inductive PyVal where
  | vnone
  | vbool (b : Bool)
  | vint (n : Int)
  | vfloat (q : ℚ)
  | vstr (s : String)
  | vlist (xs : List PyVal)
  | vdict (kvs : List (String × PyVal))

/-- The opening curly bracket character, kept out of string literals. -/
def lbrace : Char := Char.ofNat 123

/-- The closing curly bracket character, kept out of string literals. -/
def rbrace : Char := Char.ofNat 125

/-- Python truthiness of a value. -/
def PyVal.truthy : PyVal → Bool
  | .vnone => false
  | .vbool b => b
  | .vint n => decide (n ≠ 0)
  | .vfloat q => decide (q ≠ 0)
  | .vstr s => decide (s ≠ "")
  | .vlist xs => !xs.isEmpty
  | .vdict kvs => !kvs.isEmpty

/-- Numeric view of a value: Python treats booleans, ints and floats as one
numeric tower for comparison purposes. -/
def PyVal.asNum : PyVal → Option ℚ
  | .vbool b => some (if b then 1 else 0)
  | .vint n => some (n : ℚ)
  | .vfloat q => some q
  | _ => none

mutual

/-- Python equality (the == operator) on the modelled values: numeric
values compare by value across bool/int/float, strings and None compare by
kind, lists compare pointwise, dicts compare pointwise in insertion order
(a model of Python dict equality that is exact when key order agrees; the
modelled code never compares two dicts). -/
def pyEq : PyVal → PyVal → Bool
  | .vnone, .vnone => true
  | .vstr s, .vstr t => s == t
  | .vlist xs, .vlist ys => pyEqList xs ys
  | .vdict xs, .vdict ys => pyEqPairs xs ys
  | a, b =>
    match a.asNum, b.asNum with
    | some x, some y => x == y
    | _, _ => false

/-- Pointwise Python equality of two lists of values. -/
def pyEqList : List PyVal → List PyVal → Bool
  | [], [] => true
  | x :: xs, y :: ys => pyEq x y && pyEqList xs ys
  | _, _ => false

/-- Pointwise Python equality of two key-value lists. -/
def pyEqPairs : List (String × PyVal) → List (String × PyVal) → Bool
  | [], [] => true
  | (k, v) :: xs, (l, w) :: ys => k == l && pyEq v w && pyEqPairs xs ys
  | _, _ => false

end

/-- The four Python ordering operators. -/
inductive CmpOp where
  | lt
  | le
  | gt
  | ge
deriving DecidableEq, Repr

/-- Python ordering comparison: defined (some) for numeric-numeric and
string-string operands, undefined (none, a TypeError) otherwise.  None
supports no ordering in Python 3.  List-list ordering, which Python
defines lexicographically, is outside the modelled fragment and mapped to
none; the modelled code never orders lists. -/
def pyOrder (a b : PyVal) (op : CmpOp) : Option Bool :=
  match a.asNum, b.asNum with
  | some x, some y =>
    some (match op with
      | .lt => decide (x < y)
      | .le => decide (x ≤ y)
      | .gt => decide (x > y)
      | .ge => decide (x ≥ y))
  | _, _ =>
    match a, b with
    | .vstr s, .vstr t =>
      some (match op with
        | .lt => decide (s < t)
        | .le => decide (s ≤ t)
        | .gt => decide (t < s)
        | .ge => decide (t ≤ s))
    | _, _ => none

/-- Substring occurrence test, modelling the Python `in` operator on two
strings: the empty needle always occurs. -/
def strContainsSub (s t : String) : Bool :=
  if t = "" then true else decide (2 ≤ (strSplitOn s t).length)

/-- Python membership for the contains operator (context.py lines 224-227):
on a list, elementwise ==; on a string, substring of a string, with a
non-string needle raising TypeError (caught by the caller, hence false);
any other left operand yields false. -/
def pyContains (left right : PyVal) : Bool :=
  match left with
  | .vlist xs => xs.any (fun v => pyEq v right)
  | .vstr s =>
    match right with
    | .vstr t => strContainsSub s t
    | _ => false
  | _ => false

/-! ### Workflow context (backend/app/workflow/context.py) -/

/-- Shallow embedding of WorkflowContext._compare
(context.py lines 209-232): dispatch on the operator string; a TypeError
(undefined ordering) or unknown operator yields false. -/
def compare_values (left : PyVal) (op : String) (right : PyVal) : Bool :=
  if op = "==" then pyEq left right
  else if op = "!=" then !(pyEq left right)
  else if op = ">" then (pyOrder left right CmpOp.gt).getD false
  else if op = "<" then (pyOrder left right CmpOp.lt).getD false
  else if op = ">=" then (pyOrder left right CmpOp.ge).getD false
  else if op = "<=" then (pyOrder left right CmpOp.le).getD false
  else if op = "contains" then pyContains left right
  else false

/-- A word character in the sense of the regex \w used by _resolve_path,
modelled over ASCII. -/
def isWordChar (c : Char) : Bool := c.isAlphanum || c == '_'

/-- Models re.match applied to the array-access pattern of _resolve_path
(context.py line 115): a nonempty word-character prefix, an opening square
bracket, one or more digits, a closing square bracket; trailing characters
are ignored because re.match only anchors at the start. -/
def arrayAccessMatch (part : String) : Option (String × Nat) :=
  let w := strTakeWhileF part isWordChar
  if strIsEmpty w then none
  else
    let rest := strDropN part (strLen w)
    if strStartsWith rest "[" then
      let ds := strTakeWhileF (strDropN rest 1) Char.isDigit
      if strIsEmpty ds then none
      else if strStartsWith (strDropN (strDropN rest 1) (strLen ds)) "]" then
        some (w, digitsToNat ds.data)
      else none
    else none

/-- Walk of _resolve_path (context.py lines 117-143) over the already
split path parts: mapping descent with optional list indexing; any failure
yields None. -/
def resolvePathParts : PyVal → List String → PyVal
  | v, [] => v
  | v, part :: rest =>
    match arrayAccessMatch part with
    | some (key, index) =>
      match v with
      | .vdict d =>
        match d.lookup key with
        | some w =>
          match w with
          | .vlist l =>
            match l.get? index with
            | some x => resolvePathParts x rest
            | none => .vnone
          | _ => .vnone
        | none => .vnone
      | _ => .vnone
    | none =>
      match v with
      | .vdict d =>
        match d.lookup part with
        | some w => resolvePathParts w rest
        | none => .vnone
      | _ => .vnone

/-- Shallow embedding of WorkflowContext._resolve_path
(context.py lines 105-143). -/
def resolve_path (dat : List (String × PyVal)) (path : String) : PyVal :=
  resolvePathParts (PyVal.vdict dat) (strSplitOn path ".")

/-- The double-quote character. -/
def dquote : Char := Char.ofNat 34

/-- The single-quote character. -/
def squote : Char := Char.ofNat 39

/-- Nonempty all-digit string test. -/
def strAllDigits (s : String) : Bool := !(strIsEmpty s) && strAllF s Char.isDigit

/-- Models the Python int() constructor on a stripped string: an optional
sign followed by digits.  Underscore digit grouping, which Python also
accepts, is outside the modelled fragment. -/
def intParse (s : String) : Option Int :=
  if strStartsWith s "-" then
    if strAllDigits (strDropN s 1) then some (-(digitsToNat (strDropN s 1).data : Int))
    else none
  else if strStartsWith s "+" then
    if strAllDigits (strDropN s 1) then some ((digitsToNat (strDropN s 1).data : Int))
    else none
  else
    if strAllDigits s then some ((digitsToNat s.data : Int)) else none

/-- Models the Python float() constructor on decimal-point literals: an
optional sign and digits around one decimal point, valued exactly as a
rational.  Exponent forms are outside the modelled fragment (they fail
here where Python would succeed; the literals exercised by the theorems
contain none). -/
def floatParse (s : String) : Option ℚ :=
  let sign : ℚ := if strStartsWith s "-" then -1 else 1
  let s1 := if strStartsWith s "-" || strStartsWith s "+" then strDropN s 1 else s
  match strSplitOn s1 "." with
  | [a, b] =>
    if (strAllDigits a || strIsEmpty a) && (strAllDigits b || strIsEmpty b)
        && !(strIsEmpty a && strIsEmpty b) then
      some (sign * ((digitsToNat a.data : ℚ)
        + (digitsToNat b.data : ℚ) / ((10 : ℚ) ^ strLen b)))
    else none
  | _ => none

/-- The numeric branch of _parse_literal (context.py lines 190-196):
float() is tried when the token contains a decimal point, otherwise
int(); on failure the caller falls through to the keyword literals. -/
def pyNumParse (value : String) : Option PyVal :=
  if 2 ≤ (strSplitOn value ".").length then
    (floatParse value).map (fun q => PyVal.vfloat q)
  else
    (intParse value).map (fun n => PyVal.vint n)

/-- Shallow embedding of WorkflowContext._parse_literal
(context.py lines 183-207): strip matching quotes, else number, else
boolean and null keywords, else a bare string. -/
def parse_literal (value : String) : PyVal :=
  if (strStartsWith value (String.singleton dquote) && strEndsWith value (String.singleton dquote)) ||
     (strStartsWith value (String.singleton squote) && strEndsWith value (String.singleton squote)) then
    PyVal.vstr (strDropRightN (strDropN value 1) 1)
  else
    match pyNumParse value with
    | some v => v
    | none =>
      if strToLower value = "true" then PyVal.vbool true
      else if strToLower value = "false" then PyVal.vbool false
      else if strToLower value = "null" || strToLower value = "none" then PyVal.vnone
      else PyVal.vstr value

mutual

/-- Models the Python str() rendering of a value, used only when a
reference is substituted into a surrounding string.  The rendering of
nested lists and dicts is simplified (Python uses repr of the elements);
no theorem below depends on it. -/
def pyStr : PyVal → String
  | .vnone => "None"
  | .vbool true => "True"
  | .vbool false => "False"
  | .vint n => toString n
  | .vfloat q => toString q
  | .vstr s => s
  | .vlist xs => "[" ++ pyStrList xs ++ "]"
  | .vdict kvs => String.singleton lbrace ++ pyStrPairs kvs ++ String.singleton rbrace

/-- Comma-joined rendering of list elements. -/
def pyStrList : List PyVal → String
  | [] => ""
  | [x] => pyStr x
  | x :: xs => pyStr x ++ ", " ++ pyStrList xs

/-- Comma-joined rendering of dict entries. -/
def pyStrPairs : List (String × PyVal) → String
  | [] => ""
  | [(k, v)] => k ++ ": " ++ pyStr v
  | (k, v) :: xs => k ++ ": " ++ pyStr v ++ ", " ++ pyStrPairs xs

end

/-- The replacement text for one matched reference during string
substitution (context.py lines 98-101): str() of the resolved value, the
empty string when it resolved to None. -/
def resolveRefStr (dat : List (String × PyVal)) (path : String) : String :=
  match resolve_path dat path with
  | .vnone => ""
  | v => pyStr v

/-- Scan of re.sub over the reference pattern (context.py line 103): at
each position, a dollar, an opening brace, one or more non-closing-brace
characters and a closing brace are replaced by the resolved text;
everything else is copied.  The fuel argument only bounds the recursion
and never runs out when it starts at the length of the input. -/
def substRefsAux (dat : List (String × PyVal)) : Nat → List Char → List Char
  | 0, cs => cs
  | _ + 1, [] => []
  | fuel + 1, c :: cs =>
    if c = '$' then
      match cs with
      | d :: rest =>
        if d = lbrace then
          let inner := rest.takeWhile (fun ch => !(ch == rbrace))
          if inner.isEmpty then c :: substRefsAux dat fuel cs
          else
            match rest.drop inner.length with
            | e :: after =>
              if e = rbrace then
                (resolveRefStr dat (String.mk inner)).data ++ substRefsAux dat fuel after
              else c :: substRefsAux dat fuel cs
            | [] => c :: substRefsAux dat fuel cs
        else c :: substRefsAux dat fuel cs
      | [] => [c]
    else c :: substRefsAux dat fuel cs

/-- String substitution of every embedded reference. -/
def substRefs (dat : List (String × PyVal)) (s : String) : String :=
  String.mk (substRefsAux dat s.data.length s.data)

/-- Models re.fullmatch of the reference pattern (context.py lines 92-95):
the whole string is one dollar-brace reference with a nonempty path
containing no closing brace. -/
def fullRefMatch (s : String) : Option String :=
  match s.data with
  | c :: d :: rest =>
    if c = '$' && d = lbrace then
      match rest.getLast? with
      | some e =>
        if e = rbrace then
          let inner := rest.dropLast
          if !inner.isEmpty && inner.all (fun ch => !(ch == rbrace)) then
            some (String.mk inner)
          else none
        else none
      | none => none
    else none
  | _ => none

/-- Shallow embedding of WorkflowContext._resolve_string
(context.py lines 87-103): a whole-string reference keeps the native type
of the referenced value; otherwise each reference is substituted
textually. -/
def resolve_string (dat : List (String × PyVal)) (value : String) : PyVal :=
  match fullRefMatch value with
  | some path => resolve_path dat path
  | none => PyVal.vstr (substRefs dat value)

mutual

/-- Shallow embedding of WorkflowContext.resolve_value
(context.py lines 70-85): strings resolve references, mappings and lists
resolve recursively, everything else is returned unchanged. -/
def resolve_value (dat : List (String × PyVal)) : PyVal → PyVal
  | .vstr s => resolve_string dat s
  | .vdict kvs => PyVal.vdict (resolveValuePairs dat kvs)
  | .vlist xs => PyVal.vlist (resolveValueList dat xs)
  | v => v

/-- Recursive resolution of list elements. -/
def resolveValueList (dat : List (String × PyVal)) : List PyVal → List PyVal
  | [] => []
  | x :: xs => resolve_value dat x :: resolveValueList dat xs

/-- Recursive resolution of dict values. -/
def resolveValuePairs (dat : List (String × PyVal)) :
    List (String × PyVal) → List (String × PyVal)
  | [] => []
  | (k, v) :: xs => (k, resolve_value dat v) :: resolveValuePairs dat xs

end

/-- The operator list of evaluate_condition in priority order
(context.py line 160). -/
def OPERATORS : List String := ["==", "!=", ">=", "<=", ">", "<", " contains "]

/-- Models str.split(sep, 1): the text before the first occurrence of the
separator and everything after it, none when the separator is absent. -/
def splitOnce (s sep : String) : Option (String × String) :=
  match strSplitOn s sep with
  | [] => none
  | [_] => none
  | a :: rest => some (a, strIntercalate sep rest)

/-- The operator scan of evaluate_condition (context.py lines 162-167):
the first operator in priority order that occurs anywhere in the condition
splits it once. -/
def findOperator (c : String) : List String → Option (String × String × String)
  | [] => none
  | op :: rest =>
    match splitOnce c op with
    | some (l, r) => some (op, l, r)
    | none => findOperator c rest

/-- The string consisting of a dollar sign and an opening brace, the
prefix marking a reference. -/
def dollarBrace : String := String.mk ['$', lbrace]

/-- The right-hand value of a condition (context.py lines 172-176): a
reference when it starts with a dollar-brace, a literal otherwise. -/
def rhsValue (dat : List (String × PyVal)) (right : String) : PyVal :=
  if strStartsWith right dollarBrace then resolve_value dat (PyVal.vstr right)
  else parse_literal right

/-- Shallow embedding of WorkflowContext.evaluate_condition
(context.py lines 145-181): find the operator, resolve the left side as a
path, parse or resolve the right side, compare; an unparseable condition
yields false. -/
def evaluate_condition (dat : List (String × PyVal)) (condition : String) : Bool :=
  let condition := strTrim condition
  match findOperator condition OPERATORS with
  | none => false
  | some (op, l, r) =>
    let left := strTrim l
    let right := strTrim r
    let left_value := resolve_path dat left
    let right_value := rhsValue dat right
    compare_values left_value (strTrim op) right_value

/-! ### Workflow graph and engine
(backend/app/workflow/engine.py, backend/app/workflow/nodes.py)

The engine is modelled for the node types whose execution is pure control
flow: delay, manual, condition and notification.  Tool, parallel and loop
nodes involve subprocess polling and task concurrency and are outside the
modelled fragment; the claims below only traverse graphs built from the
modelled types. -/

/-- A workflow edge as stored in the definition JSON.  A key that is
present with a JSON string maps to some; an absent key maps to none (a
null-valued key, which the builders never produce, is conflated with an
absent one). -/
structure WEdge where
  id : String
  source : String
  target : String
  label : Option String
  sourceHandle : Option String
deriving DecidableEq, Repr

/-- A workflow node as stored in the definition JSON. -/
structure WNode where
  id : String
  type : String
  data : List (String × PyVal)

/-- A workflow definition: the graph of nodes and edges. -/
structure WorkflowDef where
  nodes : List WNode
  edges : List WEdge

/-- The effective label of an edge, from engine.py line 277:
edge.get("label", edge.get("sourceHandle", "")). -/
def edgeLabel (e : WEdge) : String := e.label.getD (e.sourceHandle.getD "")

/-- The outgoing edges of a node in definition order (the adjacency list
built in engine.py lines 63-68). -/
def outgoingEdges (g : WorkflowDef) (node_id : String) : List WEdge :=
  g.edges.filter (fun e => e.source == node_id)

/-- The outgoing edges a condition node dispatches after returning a
branch, from engine.py lines 276-278: every edge whose effective label
equals the branch or is empty. -/
def conditionFollowedEdges (edges : List WEdge) (branch : String) : List WEdge :=
  edges.filter (fun e => edgeLabel e == branch || edgeLabel e == "")

/-- The successor edges of a condition node as the claim describes them:
edges labelled with the branch; edges with no label only when no edge
carries the branch label.  Written from the claim text, not from the
source; the refinement target for C5. -/
def claimedConditionSuccessors (edges : List WEdge) (branch : String) : List WEdge :=
  let labelled := edges.filter (fun e => edgeLabel e == branch)
  if labelled.isEmpty then edges.filter (fun e => edgeLabel e == "") else labelled

/-- Python dict.get with a default. -/
def dictGet (d : List (String × PyVal)) (k : String) (dflt : PyVal) : PyVal :=
  (d.lookup k).getD dflt

/-- Python dict assignment: replace the binding in place if the key
exists, otherwise append (insertion order is preserved). -/
def ctxSet (dat : List (String × PyVal)) (k : String) (v : PyVal) :
    List (String × PyVal) :=
  if dat.any (fun p => p.1 == k) then
    dat.map (fun p => if p.1 == k then (k, v) else p)
  else dat ++ [(k, v)]

/-- The NodeResult dataclass (nodes.py lines 25-35), without the
children_results field that only parallel and loop nodes populate. -/
structure NodeResultM where
  success : Bool
  data : List (String × PyVal)
  error : Option String
  branch : Option String

/-- One execution_log entry (engine.py lines 220-225 and 242-247);
timestamps are not modelled. -/
structure LogEntry where
  node_id : String
  node_type : String
  status : String
  result : Option (List (String × PyVal))
  error : Option String

/-- The WorkflowRun fields the engine reads and writes, plus the in-memory
engine state (context, executed set).  status_history records every
assignment to run.status in order; saved_context models the persisted
run.context column. -/
structure RunState where
  status : String
  status_history : List String
  current_node_id : Option String
  current_step : Nat
  execution_log : List LogEntry
  ctx : List (String × PyVal)
  executed : List String
  saved_context : Option (List (String × PyVal))
  error_message : Option String
  started_at_set : Bool
  completed_at_set : Bool

/-- Assign run.status, recording the assignment. -/
def setStatus (st : RunState) (s : String) : RunState :=
  { st with status := s, status_history := st.status_history ++ [s] }

/-- Models the Python int() constructor on a value: ints pass through,
booleans become 0 or 1, floats truncate toward zero, strings parse as
stripped integer literals; anything else raises (none). -/
def pyToInt : PyVal → Option Int
  | .vint n => some n
  | .vbool b => some (if b then 1 else 0)
  | .vfloat q => some (if q ≥ 0 then q.floor else q.ceil)
  | .vstr s => intParse (strTrim s)
  | _ => none

/-- Shallow embedding of DelayNode.execute (nodes.py lines 230-251):
delay_seconds converted with int(), defaulting to 0 on failure; always
succeeds.  The sleep itself is wall-clock and not modelled. -/
def exec_delay_node (nd_data : List (String × PyVal)) : NodeResultM :=
  let raw := dictGet nd_data "delay_seconds" (PyVal.vint 0)
  let ds : Int := (pyToInt raw).getD 0
  { success := true, data := [("delay_seconds", PyVal.vint ds)]
    error := none, branch := none }

/-- Shallow embedding of ManualNode.execute (nodes.py lines 457-508):
resolves title and message against the context, and returns the
approval_required marker result; the emitted websocket event is
best-effort and not part of the run state. -/
def exec_manual_node (ctx : List (String × PyVal)) (node_id : String)
    (nd_data : List (String × PyVal)) : NodeResultM :=
  let title := dictGet nd_data "title" (PyVal.vstr "Manual Approval Required")
  let message := dictGet nd_data "message" (PyVal.vstr "Please approve to continue")
  let options := dictGet nd_data "options"
    (PyVal.vlist [PyVal.vstr "approve", PyVal.vstr "reject"])
  { success := true
    data := [("approval_required", PyVal.vbool true),
             ("node_id", PyVal.vstr node_id),
             ("title", resolve_value ctx title),
             ("message", resolve_value ctx message),
             ("options", options)]
    error := none, branch := none }

/-- Shallow embedding of ConditionNode.execute (nodes.py lines 191-227):
a falsy condition fails with "No condition specified"; a string condition
is evaluated and the true or false label returned as the branch; a truthy
non-string condition raises inside the try and yields the caught-exception
failure result.  Labels are strings in every definition the builders
produce; a non-string label is rendered with str(). -/
def exec_condition_node (ctx : List (String × PyVal))
    (nd_data : List (String × PyVal)) : NodeResultM :=
  let condV := dictGet nd_data "condition" (PyVal.vstr "")
  if !condV.truthy then
    { success := false, data := [], error := some "No condition specified", branch := none }
  else
    match condV with
    | .vstr s =>
      let b := evaluate_condition ctx s
      let tl := dictGet nd_data "true_label" (PyVal.vstr "true")
      let fl := dictGet nd_data "false_label" (PyVal.vstr "false")
      let branch := pyStr (if b then tl else fl)
      { success := true
        data := [("condition", PyVal.vstr s), ("result", PyVal.vbool b),
                 ("branch", PyVal.vstr branch)]
        error := none, branch := some branch }
    | v =>
      { success := false, data := [("condition", v)]
        error := some "AttributeError: strip", branch := none }

/-- Shallow embedding of NotificationNode.execute (nodes.py lines
254-300): resolves the message, publishes best-effort (not modelled) and
always succeeds. -/
def exec_notification_node (ctx : List (String × PyVal))
    (nd_data : List (String × PyVal)) : NodeResultM :=
  let ntype := dictGet nd_data "notification_type" (PyVal.vstr "info")
  let message := dictGet nd_data "message" (PyVal.vstr "")
  { success := true
    data := [("notification_type", ntype), ("message", resolve_value ctx message)]
    error := none, branch := none }

/-- The node types inside the modelled engine fragment. -/
def isModeledNodeType (t : String) : Bool :=
  ["delay", "manual", "condition", "notification"].contains t

/-- Dispatch of create_node plus node.execute for the modelled types. -/
def nodeExec (ctx : List (String × PyVal)) (nd : WNode) : NodeResultM :=
  if nd.type == "delay" then exec_delay_node nd.data
  else if nd.type == "manual" then exec_manual_node ctx nd.id nd.data
  else if nd.type == "condition" then exec_condition_node ctx nd.data
  else if nd.type == "notification" then exec_notification_node ctx nd.data
  else { success := false, data := [], error := some "unmodeled node type", branch := none }

/-- Truthiness of result.data.get("approval_required"), the engine's
suspension test. -/
def approvalRequired (r : NodeResultM) : Bool :=
  (dictGet r.data "approval_required" PyVal.vnone).truthy

/-- A pending engine call: the execution of one node, or the successor
loop over a list of edges. -/
inductive EngineCall where
  | node (node_id : String)
  | edges (es : List WEdge)

/-- Shallow embedding of WorkflowEngine._execute_node and its successor
dispatch loops (engine.py lines 205-313) restricted to the modelled node
types, written as one function over pending calls so that the recursion
is structural on the fuel: executing a node skips it when already
executed, appends a running log entry, bumps current_node_id and
current_step, executes, rewrites the last log entry, stores
node_{id}_result, marks the node executed unless approval is pending,
then dispatches the successor edges (filtered by branch label for
condition nodes per lines 276-278, every outgoing edge otherwise); the
edge loop (lines 276-295) runs each target in order, returns immediately
on a child result carrying approval_required, and is not stopped by child
failures.  Every recursive call costs one unit of fuel; the claims below
supply more than enough. -/
def engineGo (g : WorkflowDef) : Nat → EngineCall → RunState →
    Option NodeResultM × RunState
  | 0, _, st => (none, st)
  | _ + 1, EngineCall.edges [], st => (none, st)
  | fuel + 1, EngineCall.edges (e :: rest), st =>
    let (res, st1) := engineGo g fuel (EngineCall.node e.target) st
    match res with
    | some r =>
      if approvalRequired r then (some r, st1)
      else engineGo g fuel (EngineCall.edges rest) st1
    | none => engineGo g fuel (EngineCall.edges rest) st1
  | fuel + 1, EngineCall.node node_id, st =>
    if st.executed.contains node_id then
      (some { success := true, data := [("skipped", PyVal.vbool true)]
              error := none, branch := none }, st)
    else
      match g.nodes.find? (fun n => n.id == node_id) with
      | none => (none, st)
      | some nd =>
        if !(isModeledNodeType nd.type) then (none, st)
        else
          let entry0 : LogEntry :=
            { node_id := node_id, node_type := nd.type, status := "running"
              result := none, error := none }
          let st1 := { st with
            execution_log := st.execution_log ++ [entry0]
            current_node_id := some node_id
            current_step := st.current_step + 1 }
          let result := nodeExec st1.ctx nd
          let entry1 := { entry0 with
            status := if result.success then "completed" else "failed"
            result := some result.data
            error := result.error }
          let st2 := { st1 with
            execution_log := st1.execution_log.dropLast ++ [entry1] }
          let st3 := { st2 with
            ctx := ctxSet st2.ctx ("node_" ++ node_id ++ "_result")
              (PyVal.vdict result.data) }
          let st4 :=
            if approvalRequired result then st3
            else { st3 with executed := st3.executed ++ [node_id] }
          if !result.success then (some result, st4)
          else if approvalRequired result then (some result, st4)
          else
            let edges := outgoingEdges g node_id
            let isBranching := nd.type == "condition"
              && (result.branch.getD "") ≠ ""
            if isBranching then
              let (appr, st5) := engineGo g fuel
                (EngineCall.edges (conditionFollowedEdges edges (result.branch.getD ""))) st4
              match appr with
              | some r => (some r, st5)
              | none => (some result, st5)
            else
              let (appr, st5) := engineGo g fuel (EngineCall.edges edges) st4
              match appr with
              | some r => (some r, st5)
              | none => (some result, st5)

/-- The execution of one node: _execute_node entered with fuel for the
whole subtraversal. -/
def executeNode (g : WorkflowDef) (fuel : Nat) (node_id : String) (st : RunState) :
    Option NodeResultM × RunState :=
  engineGo g fuel (EngineCall.node node_id) st

/-- The start nodes of a traversal (engine.py lines 90-98): every node
without an incoming edge, or the first defined node when all nodes have
incoming edges. -/
def startNodeIds (g : WorkflowDef) : List String :=
  let target_nodes := g.edges.map (fun e => e.target)
  let ids := (g.nodes.map (fun n => n.id)).filter (fun i => !target_nodes.contains i)
  if ids.isEmpty then (g.nodes.map (fun n => n.id)).take 1 else ids

/-- The start-node loop of WorkflowEngine.execute (engine.py lines
101-124): an approval result suspends the run recording the START node id
as current_node_id (line 107); a failed or missing result raises,
terminating the run failed; exhaustion of start nodes completes the
run. -/
def execStartLoop (g : WorkflowDef) (fuel : Nat) :
    List String → RunState → RunState
  | [], st =>
    let st1 := setStatus st "completed"
    { st1 with completed_at_set := true, saved_context := some st1.ctx }
  | node_id :: rest, st =>
    let (res, st1) := executeNode g fuel node_id st
    match res with
    | some r =>
      if approvalRequired r then
        let st2 := setStatus st1 "waiting_approval"
        { st2 with current_node_id := some node_id, saved_context := some st2.ctx }
      else if r.success then execStartLoop g fuel rest st1
      else
        let st2 := setStatus st1 "failed"
        { st2 with
          error_message := some ("Start node " ++ node_id ++ " failed")
          completed_at_set := true
          saved_context := some st2.ctx }
    | none =>
      let st2 := setStatus st1 "failed"
      { st2 with
        error_message := some ("Start node " ++ node_id ++ " failed")
        completed_at_set := true
        saved_context := some st2.ctx }

/-- Shallow embedding of WorkflowEngine.execute (engine.py lines 73-135). -/
def engineExecute (g : WorkflowDef) (fuel : Nat) (st0 : RunState) : RunState :=
  let st1 := { setStatus st0 "running" with started_at_set := true }
  execStartLoop g fuel (startNodeIds g) st1

/-- The initial run state built by the engine constructor
(engine.py lines 45-71): the context is the run input_params seeded with
project_id, workflow_id, workflow_run_id and workflow_name. -/
def initRunState (input_params : List (String × PyVal))
    (project_id workflow_id run_id workflow_name : String) : RunState :=
  let ctx1 := ctxSet (ctxSet (ctxSet (ctxSet input_params
    "project_id" (PyVal.vstr project_id))
    "workflow_id" (PyVal.vstr workflow_id))
    "workflow_run_id" (PyVal.vstr run_id))
    "workflow_name" (PyVal.vstr workflow_name)
  { status := "pending", status_history := [], current_node_id := none
    current_step := 0, execution_log := [], ctx := ctx1, executed := []
    saved_context := none, error_message := none
    started_at_set := false, completed_at_set := false }

/-- The successor loop of WorkflowEngine.resume (engine.py lines
168-193): each outgoing edge of the approved node is executed in order; a
child approval suspends recording the direct successor as
current_node_id; no failure check is performed; exhaustion completes the
run. -/
def resumeEdgeLoop (g : WorkflowDef) (fuel : Nat) :
    List WEdge → RunState → RunState
  | [], st =>
    let st1 := setStatus st "completed"
    { st1 with completed_at_set := true, saved_context := some st1.ctx }
  | e :: rest, st =>
    let (res, st1) := executeNode g fuel e.target st
    match res with
    | some r =>
      if approvalRequired r then
        let st2 := setStatus st1 "waiting_approval"
        { st2 with current_node_id := some e.target, saved_context := some st2.ctx }
      else resumeEdgeLoop g fuel rest st1
    | none => resumeEdgeLoop g fuel rest st1

/-- Shallow embedding of WorkflowEngine.resume (engine.py lines 137-203)
as invoked through a freshly constructed engine (the executed set starts
empty and receives only the approved node): the context is restored from
the persisted run.context and re-seeded with the three id bindings
(lines 148-151, workflow_name is not re-seeded), the approval result is
stored, the node marked executed, the run set running, and traversal
continues from the approved node's successors. -/
def engineResume (g : WorkflowDef) (fuel : Nat) (st : RunState)
    (project_id workflow_id run_id : String)
    (node_id : String) (approval_data : List (String × PyVal)) : RunState :=
  let ctx1 := ctxSet (ctxSet (ctxSet (st.saved_context.getD [])
    "project_id" (PyVal.vstr project_id))
    "workflow_id" (PyVal.vstr workflow_id))
    "workflow_run_id" (PyVal.vstr run_id)
  let ctx2 := ctxSet ctx1 ("node_" ++ node_id ++ "_approval")
    (PyVal.vdict approval_data)
  let ctx3 := ctxSet ctx2 ("node_" ++ node_id ++ "_result")
    (PyVal.vdict [("approved", PyVal.vbool true),
                  ("approval_data", PyVal.vdict approval_data)])
  let st1 := { st with ctx := ctx3, executed := [node_id] }
  let st2 := setStatus st1 "running"
  resumeEdgeLoop g fuel (outgoingEdges g node_id) st2

/-! #### Concrete workflows evaluated by the claims -/

/-- The three-node approval workflow of the spec scenario: A and C are
delay nodes, B is a manual-approval node, wired A to B to C. -/
def wfABC : WorkflowDef :=
  { nodes := [ { id := "A", type := "delay", data := [] }
             , { id := "B", type := "manual", data := [] }
             , { id := "C", type := "delay", data := [] } ]
    edges := [ { id := "e1", source := "A", target := "B", label := none, sourceHandle := none }
             , { id := "e2", source := "B", target := "C", label := none, sourceHandle := none } ] }

/-- The suspended run after executing the approval workflow. -/
def runABC1 : RunState :=
  engineExecute wfABC 50 (initRunState [] "p1" "w1" "r1" "approval workflow")

/-- The run after resuming the approval workflow at node B. -/
def runABC2 : RunState :=
  engineResume wfABC 50 runABC1 "p1" "w1" "r1" "B" [("option", PyVal.vstr "approve")]

/-- A condition node with one branch-labelled successor and one
unlabelled successor, used to evaluate the branch dispatch. -/
def wfCond : WorkflowDef :=
  { nodes := [ { id := "cond", type := "condition"
               , data := [("condition", PyVal.vstr "status == completed")] }
             , { id := "T", type := "delay", data := [] }
             , { id := "U", type := "delay", data := [] } ]
    edges := [ { id := "e1", source := "cond", target := "T", label := some "true", sourceHandle := none }
             , { id := "e2", source := "cond", target := "U", label := none, sourceHandle := none } ] }

/-- The run of the condition workflow in a context where the condition
evaluates to true. -/
def runCond : RunState :=
  engineExecute wfCond 50
    (initRunState [("status", PyVal.vstr "completed")] "p1" "w2" "r2" "branching")

/-! ### Parsed entities and the nuclei line decoder
(backend/app/tools/parsers/base.py, backend/app/tools/parsers/nuclei_parser.py) -/

/-- The ParsedAsset dataclass (base.py lines 28-36). -/
structure ParsedAssetM where
  type : String
  value : String
  metadata : List (String × PyVal)
  tags : List String
  risk_score : Int

/-- The ParsedVulnerability dataclass (base.py lines 39-60) as the nuclei
decoder populates it.  Fields the decoder passes through from the JSON
keep the dynamic value type. -/
structure ParsedVulnM where
  title : PyVal
  severity : String
  description : PyVal
  cvss_score : Option ℚ
  cvss_vector : Option PyVal
  cve_ids : PyVal
  cwe_ids : PyVal
  evidence : Option String
  remediation : Option PyVal
  references : PyVal
  template_id : PyVal
  request : Option String
  response : Option String
  metadata : List (String × PyVal)
  tags : List PyVal
  asset_value : PyVal
  asset_type : String

/-- The ParseOutput aggregate (base.py lines 95-103) restricted to the
fields the nuclei decoder touches, together with the decoder-local
seen_hosts set. -/
structure ParseState where
  assets : List ParsedAssetM
  vulnerabilities : List ParsedVulnM
  errors : List String
  seen_hosts : List PyVal

/-- The empty parse state. -/
def emptyParseState : ParseState :=
  { assets := [], vulnerabilities := [], errors := [], seen_hosts := [] }

/-- Models urllib.parse.urlparse restricted to (scheme, netloc, path) on
absolute URLs with an authority part; a string without a scheme separator
is all path, as in the standard library.  Query and fragment components,
which the exercised inputs do not contain, are not split off. -/
def urlparseModel (u : String) : String × String × String :=
  match splitOnce u "://" with
  | some (sch, rest) =>
    match splitOnce rest "/" with
    | some (nl, p) => (sch, nl, "/" ++ p)
    | none => (sch, rest, "")
  | none => ("", "", u)

/-- Models NucleiParser._is_ip (nuclei_parser.py lines 215-219): one to
three digits, four groups, dot separated. -/
def isIpModel (host : String) : Bool :=
  let parts := strSplitOn host "."
  parts.length == 4
    && parts.all (fun p =>
        !(strIsEmpty p) && decide (strLen p ≤ 3) && strAllF p Char.isDigit)

/-- Shallow embedding of NucleiParser._create_url_asset
(nuclei_parser.py lines 181-212): a url asset for the target, plus a
domain asset when the authority has a non-IP host part; any internal
failure is swallowed. -/
def createUrlAsset (url : String) : List ParsedAssetM :=
  let (scheme, netloc, path) := urlparseModel url
  let urlAsset : ParsedAssetM :=
    { type := "url", value := url
      metadata := [("scheme", PyVal.vstr scheme), ("netloc", PyVal.vstr netloc),
                   ("path", PyVal.vstr path)]
      tags := ["nuclei"], risk_score := 0 }
  if netloc ≠ "" then
    let hostPart := (strSplitOn netloc ":").headD ""
    if hostPart ≠ "" && !(isIpModel hostPart) then
      [urlAsset,
       { type := "domain", value := hostPart
         metadata := [("source_url", PyVal.vstr url)]
         tags := ["nuclei"], risk_score := 0 }]
    else [urlAsset]
  else [urlAsset]

/-- The SEVERITY_MAP lookup with default info
(nuclei_parser.py lines 30-37 and 90). -/
def severityMap (s : String) : String :=
  if s = "info" then "info"
  else if s = "low" then "low"
  else if s = "medium" then "medium"
  else if s = "high" then "high"
  else if s = "critical" then "critical"
  else if s = "unknown" then "info"
  else "info"

/-- Models the Python float() constructor on a value: numbers pass
through, strings parse as stripped decimal or integer literals; anything
else raises (none, the caught ValueError). -/
def pyToFloat : PyVal → Option ℚ
  | .vint n => some (n : ℚ)
  | .vfloat q => some q
  | .vbool b => some (if b then 1 else 0)
  | .vstr s =>
    let t := strTrim s
    match floatParse t with
    | some q => some q
    | none => (intParse t).map (fun n => (n : ℚ))
  | _ => none

/-- The str-to-singleton-list normalization applied to reference, cve-id
and cwe-id values (nuclei_parser.py lines 98-110). -/
def strToList (v : PyVal) : PyVal :=
  match v with
  | .vstr s => PyVal.vlist (if s = "" then [] else [PyVal.vstr s])
  | v => v

/-- The vulnerability built by NucleiParser._process_finding
(nuclei_parser.py lines 88-178) from a finding that reached the
vulnerability construction, or the exception text when a malformed field
raises.  The raising checks appear in the execution order of the source:
severity lower(), classification attribute access, response length,
request slicing, tag list concatenation.  The Python length and slice
operators on non-string sequence values, and the exact exception texts,
are outside the modelled fragment. -/
def vulnOfFinding (finding : List (String × PyVal))
    (template_id : PyVal) (info_v host matched_at : PyVal) :
    Except String ParsedVulnM := do
  let infoD ← match info_v with
    | PyVal.vdict d => pure d
    | _ => throw "info has no attribute get"
  let sevV := dictGet infoD "severity" (PyVal.vstr "info")
  let sevS ← match sevV with
    | PyVal.vstr s => pure (strToLower s)
    | _ => throw "severity has no attribute lower"
  let severity := severityMap sevS
  let name := dictGet infoD "name" template_id
  let description := dictGet infoD "description" (PyVal.vstr "")
  let references := strToList (dictGet infoD "reference" (PyVal.vlist []))
  let classV := dictGet infoD "classification" (PyVal.vdict [])
  let classD ← match classV with
    | PyVal.vdict d => pure d
    | _ => throw "classification has no attribute get"
  let cve_ids := strToList (dictGet classD "cve-id" (PyVal.vlist []))
  let cwe_ids := strToList (dictGet classD "cwe-id" (PyVal.vlist []))
  let cvss_metrics := dictGet classD "cvss-metrics" (PyVal.vstr "")
  let cvss_score_str := dictGet classD "cvss-score" PyVal.vnone
  let cvss_score : Option ℚ :=
    if cvss_score_str.truthy then pyToFloat cvss_score_str else none
  let tagsV := dictGet infoD "tags" (PyVal.vlist [])
  let requestV := dictGet finding "request" (PyVal.vstr "")
  let responseV := dictGet finding "response" (PyVal.vstr "")
  let response ← match responseV with
    | PyVal.vstr s =>
      pure (if 5000 < strLen s then strTakeN s 5000 ++ "\n... [truncated]" else s)
    | _ => throw "object has no len"
  let request ← match requestV with
    | PyVal.vstr s => pure (if s = "" then none else some (strTakeN s 5000))
    | v => if v.truthy then throw "object is not subscriptable" else pure none
  let extracted := dictGet finding "extracted-results" (PyVal.vlist [])
  let evidence0 :=
    if extracted.truthy then
      match extracted with
      | PyVal.vlist xs => strIntercalate "\n" (xs.map pyStr)
      | v => pyStr v
    else ""
  let matcher_name := dictGet finding "matcher-name" (PyVal.vstr "")
  let evidence :=
    if matcher_name.truthy then
      strTrim ("Matcher: " ++ pyStr matcher_name ++ "\n" ++ evidence0)
    else evidence0
  let remediation := dictGet infoD "remediation" (PyVal.vstr "")
  let tagsL ← match tagsV with
    | PyVal.vstr s =>
      pure ((strSplitOn s ",").filterMap (fun t =>
        let t1 := strTrim t
        if t1 = "" then none else some (PyVal.vstr t1)))
    | PyVal.vlist xs => pure xs
    | _ => throw "can only concatenate list"
  pure
    { title := name
      severity := severity
      description := description
      cvss_score := cvss_score
      cvss_vector := if cvss_metrics.truthy then some cvss_metrics else none
      cve_ids := cve_ids
      cwe_ids := cwe_ids
      evidence := if evidence = "" then none else some evidence
      remediation := if remediation.truthy then some remediation else none
      references := references
      template_id := template_id
      request := request
      response := if response = "" then none else some response
      metadata := [("template_id", template_id), ("matched_at", matched_at),
                   ("host", host), ("type", dictGet finding "type" (PyVal.vstr "")),
                   ("matcher_name", matcher_name)]
      tags := PyVal.vstr "nuclei" :: tagsL
      asset_value := host
      asset_type := "url" }

/-- The state-independent part of one _process_finding call: the host
value (for the seen check), the assets it would contribute for an unseen
host, and the outcome: none when the target is falsy and the finding is
skipped, otherwise the built vulnerability or the exception text. -/
structure FindingOut where
  host : PyVal
  assets_if_new : List ParsedAssetM
  outcome : Option (Except String ParsedVulnM)

/-- The state-independent computation of NucleiParser._process_finding
(nuclei_parser.py lines 68-178): read the target keys, prepare the url
assets of the host, and build the vulnerability.  A non-mapping finding
raises at the first attribute access. -/
def findingOut (v : PyVal) : FindingOut :=
  match v with
  | PyVal.vdict finding =>
    let template_id := dictGet finding "template-id" (dictGet finding "templateID" (PyVal.vstr ""))
    let info := dictGet finding "info" (PyVal.vdict [])
    let host := dictGet finding "host" (PyVal.vstr "")
    let matched_at := dictGet finding "matched-at" (dictGet finding "matched" (PyVal.vstr ""))
    let target_url := if matched_at.truthy then matched_at else host
    if !target_url.truthy then
      { host := host, assets_if_new := [], outcome := none }
    else
      { host := host
        assets_if_new :=
          match host with
          | PyVal.vstr s => createUrlAsset s
          | _ => []
        outcome := some (vulnOfFinding finding template_id info host matched_at) }
  | _ =>
    { host := PyVal.vnone, assets_if_new := []
      outcome := some (Except.error "object has no attribute get") }

/-- Shallow embedding of the effect of one _process_finding call on the
shared result: a skipped finding changes nothing; otherwise an unseen
truthy host contributes its assets before the vulnerability or the
exception, and mutations made before a raise are kept, as on the shared
result object in the source.  The returned option carries the exception
text for the caller's error handler. -/
def processFinding (st : ParseState) (v : PyVal) : ParseState × Option String :=
  let f := findingOut v
  match f.outcome with
  | none => (st, none)
  | some r =>
    let st1 :=
      if f.host.truthy && !(st.seen_hosts.any (fun h => pyEq h f.host)) then
        { st with seen_hosts := st.seen_hosts ++ [f.host]
                  assets := st.assets ++ f.assets_if_new }
      else st
    match r with
    | Except.ok vuln =>
      ({ st1 with vulnerabilities := st1.vulnerabilities ++ [vuln] }, none)
    | Except.error msg => (st1, some msg)

/-- Shallow embedding of one iteration of the NucleiParser.parse line loop
(nuclei_parser.py lines 43-59): strip the line, skip it when blank, decode
it as JSON and process the finding; a JSONDecodeError records an error
only when the stripped line starts with an opening brace; any processing
exception records an error.  The exception text is modelled by the
offending line or a description, its exact rendering being opaque. -/
def processLine (loads : String → Option PyVal) (st : ParseState) (line : String) :
    ParseState :=
  let l := strTrim line
  if l = "" then st
  else
    match loads l with
    | none =>
      if strStartsWith l (String.singleton lbrace) then
        { st with errors := st.errors ++ ["JSON parse error: " ++ l] }
      else st
    | some v =>
      let (st1, exc) := processFinding st v
      match exc with
      | some msg => { st1 with errors := st1.errors ++ ["Error processing finding: " ++ msg] }
      | none => st1

/-- Shallow embedding of NucleiParser.parse (nuclei_parser.py lines
39-66), parameterised by the JSON decoder: fold the line handler over the
newline-split output. -/
def nuclei_parse (loads : String → Option PyVal) (output : String) : ParseState :=
  (strSplitOn output "\n").foldl (processLine loads) emptyParseState

/-- Reader for one JSON string literal without escapes, after the opening
quote: the text up to the closing quote and the remainder. -/
def parseJStrAux : List Char → Option (String × List Char)
  | [] => none
  | c :: rest =>
    if c = dquote then some ("", rest)
    else if c = '\\' then none
    else (parseJStrAux rest).map (fun p => (String.singleton c ++ p.1, p.2))

/-- Reader for comma-separated string-to-string JSON members after the
opening brace; returns the members and the remainder starting at the
closing brace. -/
def parsePairsAux : Nat → List Char → Option (List (String × PyVal) × List Char)
  | 0, _ => none
  | fuel + 1, cs =>
    match cs with
    | c :: rest =>
      if c = dquote then
        match parseJStrAux rest with
        | some (k, rest1) =>
          match rest1 with
          | d :: rest2 =>
            if d = ':' then
              match rest2 with
              | e :: rest3 =>
                if e = dquote then
                  match parseJStrAux rest3 with
                  | some (v, rest4) =>
                    match rest4 with
                    | f :: rest5 =>
                      if f = ',' then
                        (parsePairsAux fuel rest5).map
                          (fun p => ((k, PyVal.vstr v) :: p.1, p.2))
                      else some ([(k, PyVal.vstr v)], rest4)
                    | [] => some ([(k, PyVal.vstr v)], [])
                  | none => none
                else none
              | [] => none
            else none
          | [] => none
        | none => none
      else none
    | [] => none

/-- Modelled from the Python standard library json.loads, restricted to
flat objects with unescaped string keys and string values and no
whitespace outside strings; everything outside this fragment decodes to
none.  The concrete inputs evaluated below lie inside the fragment, where
the model agrees with json.loads. -/
def loadsModel (s : String) : Option PyVal :=
  match s.data with
  | [] => none
  | c :: rest =>
    if c = lbrace then
      if rest = [rbrace] then some (PyVal.vdict [])
      else
        match parsePairsAux rest.length rest with
        | some (kvs, rem) =>
          if rem = [rbrace] then some (PyVal.vdict kvs) else none
        | none => none
    else none

/-- The exception text of one finding, none when processing it cannot
raise. -/
def findingExc (v : PyVal) : Option String :=
  match (findingOut v).outcome with
  | some (Except.error m) => some m
  | _ => none

/-- The error strings one line contributes to ParseOutput.errors: a
decode failure contributes the JSON parse error exactly when the stripped
line starts with an opening brace; a processing exception contributes its
text; blank and silently skipped lines contribute nothing. -/
def lineErrors (loads : String → Option PyVal) (l : String) : List String :=
  let t := strTrim l
  if t = "" then []
  else
    match loads t with
    | none =>
      if strStartsWith t (String.singleton lbrace) then ["JSON parse error: " ++ t] else []
    | some v =>
      match findingExc v with
      | some m => ["Error processing finding: " ++ m]
      | none => []

/-- The number of vulnerabilities one line contributes: one exactly when
it decodes to a finding whose processing completes. -/
def lineVulnCount (loads : String → Option PyVal) (l : String) : Nat :=
  let t := strTrim l
  if t = "" then 0
  else
    match loads t with
    | none => 0
    | some v =>
      match (findingOut v).outcome with
      | some (Except.ok _) => 1
      | _ => 0

/-- A valid nuclei finding line inside the fragment of the json model:
an object with a host key. -/
def jsonFindingLine : String :=
  String.mk ([lbrace, dquote] ++ "host".data ++ [dquote, ':', dquote]
    ++ "http://x.io".data ++ [dquote, rbrace])

/-- A human-readable status line that is not JSON and does not start with
a brace. -/
def statusLine : String := "scan started: target x.io"

/-! ### Asset upsert (backend/app/tools/parsers/base.py lines 254-295) -/

/-- An Asset row with the columns the upsert touches. -/
structure AssetRow where
  project_id : Nat
  type : String
  value : String
  metadata : List (String × PyVal)
  tags : List String
  risk_score : Int
  status : String
  discovered_by : Option Nat

/-- Python double-splat dict merge of two mappings, the right side winning
on key conflicts, left keys keeping their position and new right keys
appended in order. -/
def dictMerge (old new : List (String × PyVal)) : List (String × PyVal) :=
  old.map (fun p => match new.lookup p.1 with
    | some v => (p.1, v)
    | none => p)
  ++ new.filter (fun q => !(old.any (fun p => p.1 == q.1)))

/-- Models list(set(a + b)): duplicates removed.  The iteration order of a
Python set is unspecified; this model keeps first occurrences, and the
theorems only state membership. -/
def dedupTags (ts : List String) : List String :=
  ts.foldl (fun acc t => if acc.contains t then acc else acc ++ [t]) []

/-- The lookup of an existing asset by (project, type, value)
(base.py lines 266-273). -/
def findAsset (store : List AssetRow) (pid : Nat) (ty value : String) :
    Option AssetRow :=
  store.find? (fun a => a.project_id == pid && a.type == ty && a.value == value)

/-- Shallow embedding of BaseParser._upsert_asset (base.py lines 254-295)
against a store holding at most one row per (project, type, value): when
the asset exists, merge metadata with the parsed values winning, union the
tags, keep the maximum risk score, leave every other column alone; when it
does not, insert a new row discovered by the job.  Returns the new store,
the affected row and the created flag. -/
def upsert_asset (store : List AssetRow) (job_project : Nat) (job_id : Nat)
    (pa : ParsedAssetM) : List AssetRow × AssetRow × Bool :=
  match findAsset store job_project pa.type pa.value with
  | some existing =>
    let merged := { existing with
      metadata := dictMerge existing.metadata pa.metadata
      tags := dedupTags (existing.tags ++ pa.tags)
      risk_score := max existing.risk_score pa.risk_score }
    (store.map (fun a =>
      if a.project_id == job_project && a.type == pa.type && a.value == pa.value
      then merged else a),
     merged, false)
  | none =>
    let row : AssetRow :=
      { project_id := job_project, type := pa.type, value := pa.value
        metadata := pa.metadata, tags := pa.tags, risk_score := pa.risk_score
        status := "active", discovered_by := some job_id }
    (store ++ [row], row, true)

/-! ### Concrete rows used to evaluate the models on explicit inputs -/

/-- A job already in a terminal completed state. -/
def completedJob : JobRec :=
  { sampleJob with
    status := JobStatus.completed
    exit_code := some 0
    completed_at_set := true }

/-- A job already in a terminal failed state. -/
def failedJob : JobRec :=
  { sampleJob with
    status := JobStatus.failed
    exit_code := some 1
    error_message := some "Tool exited with code 1"
    completed_at_set := true }

/-- A stored asset row for the upsert evaluation. -/
def assetRow1 : AssetRow :=
  { project_id := 1, type := "host", value := "10.0.0.1"
    metadata := [("os", PyVal.vstr "linux"), ("ttl", PyVal.vint 64)]
    tags := ["nmap"], risk_score := 20, status := "archived", discovered_by := some 7 }

/-- A parsed asset matching the stored row by (project, type, value). -/
def parsedAsset1 : ParsedAssetM :=
  { type := "host", value := "10.0.0.1"
    metadata := [("ttl", PyVal.vint 128), ("mac", PyVal.vstr "aa:bb")]
    tags := ["nuclei", "nmap"], risk_score := 10 }

/-- A parsed asset matching nothing in the store. -/
def parsedAsset2 : ParsedAssetM :=
  { type := "domain", value := "x.io"
    metadata := [("source_url", PyVal.vstr "http://x.io")]
    tags := ["nuclei"], risk_score := 0 }

/-- A condition node successor list whose edges all carry labels, used to
evaluate the branch dispatch at a concrete input. -/
def edgesTOnly : List WEdge :=
  [{ id := "e1", source := "cond", target := "T", label := some "true", sourceHandle := none },
   { id := "e3", source := "cond", target := "F", label := some "false", sourceHandle := none }]

/-! ## Theorems -/

/-- C1: for every Job whose tool runner hits its timeout deadline, the
claim states the executor transitions the Job to status timeout (not
failed), sets completed_at, and never enqueues a parse task.  Evaluating
the embedded executor on the timeout outcome: completed_at is set and no
parse task is enqueued, but the persisted status is failed, not timeout,
with the timed-out error message, even though the executor emits the
string "timeout" on the event bus — the status conjunct of the claim
fails on the code. -/
theorem c1_timeout_sets_failed_not_timeout :
    (execute_tool_async sampleJob true true RunnerOutcome.timeoutErr).job.status
      = JobStatus.failed ∧
    (execute_tool_async sampleJob true true RunnerOutcome.timeoutErr).job.status
      ≠ JobStatus.timeout ∧
    (execute_tool_async sampleJob true true RunnerOutcome.timeoutErr).job.completed_at_set
      = true ∧
    (execute_tool_async sampleJob true true RunnerOutcome.timeoutErr).parse_enqueued
      = false ∧
    (execute_tool_async sampleJob true true RunnerOutcome.timeoutErr).emitted
      = ["running", "timeout"] ∧
    (execute_tool_async sampleJob true true RunnerOutcome.timeoutErr).job.error_message
      = some "Execution timed out after 3600 seconds" :=
  ⟨rfl, by decide, rfl, rfl, rfl, rfl⟩

/-- C4: the claim states no Job ever leaves a terminal state, cancel on a
non-terminal Job sets cancelled and completed_at, and cancel or retry on
a terminal Job leaves it unchanged.  The cancel and retry endpoints do
preserve terminal states, and cancel on the queued sample job does set
cancelled with completed_at; but the executor performs no status check,
so when the already-enqueued execution task of a job that was cancelled
while queued is picked up by the worker, the job leaves the terminal
cancelled state and ends completed — the invariant conjunct of the claim
fails on the code. -/
theorem c4_cancelled_queued_job_leaves_terminal :
    (job_action_cancel sampleJob).job.status = JobStatus.cancelled ∧
    (job_action_cancel sampleJob).job.completed_at_set = true ∧
    is_terminal (job_action_cancel sampleJob).job.status = true ∧
    (execute_tool_async (job_action_cancel sampleJob).job true true
      (RunnerOutcome.normal 0)).job.status = JobStatus.completed ∧
    (execute_tool_async (job_action_cancel sampleJob).job true true
      (RunnerOutcome.normal 0)).job.status ≠ JobStatus.cancelled ∧
    job_action_cancel completedJob =
      { job := completedJob, new_job := none
        result := ActionResult.bad_request "Cannot cancel job in current state" } ∧
    job_action_retry completedJob (some 2) =
      { job := completedJob, new_job := none
        result := ActionResult.bad_request "Cannot retry job in current state" } ∧
    (job_action_retry failedJob (some 2)).job = failedJob ∧
    (job_action_retry failedJob (some 2)).new_job = some
      { project_id := 1, tool_name := "nmap"
        parameters := [("target", "10.0.0.1")]
        command := some "nmap -sV 10.0.0.1", priority := 5
        timeout_seconds := 3600, created_by := some 2
        status := JobStatus.queued, exit_code := none, error_message := none
        started_at_set := false, completed_at_set := false } ∧
    cancel_job_async completedJob = (completedJob, false) := by
  decide

/-- C6: for the workflow A to B to C with B a manual-approval node, the
claim states the run suspends waiting_approval with current_node_id = B
and a log holding A and B, and that resume(B, approval) drives the run to
running then completed with log A, B, C and node_B_result.approved true.
Evaluating the embedded engine: every conjunct holds except one — at
suspension the engine persists current_node_id = "A", the traversal start
node (engine.py line 107), not the approval node B that its own per-node
tracking (line 227) had recorded. -/
theorem c6_resume_scenario_current_node_is_start :
    runABC1.status = "waiting_approval" ∧
    runABC1.current_node_id = some "A" ∧
    runABC1.current_node_id ≠ some "B" ∧
    runABC1.execution_log.map (fun e => e.node_id) = ["A", "B"] ∧
    runABC2.status_history = ["running", "waiting_approval", "running", "completed"] ∧
    runABC2.status = "completed" ∧
    runABC2.completed_at_set = true ∧
    runABC2.execution_log.map (fun e => e.node_id) = ["A", "B", "C"] ∧
    resolve_path runABC2.ctx "node_B_result.approved" = PyVal.vbool true :=
  ⟨rfl, rfl, by decide, rfl, rfl, rfl, rfl, rfl, rfl⟩

/-- C5 counterexample: a condition node whose branch is "true" with one
successor edge labelled "true" and one unlabelled successor edge.  The
claim predicts only the labelled edge is followed (unlabelled edges only
when no label matches); the code follows both: the engine dispatches and
executes both T and U. -/
theorem c5_counterexample :
    (conditionFollowedEdges (outgoingEdges wfCond "cond") "true").map (fun e => e.target)
      = ["T", "U"] ∧
    (claimedConditionSuccessors (outgoingEdges wfCond "cond") "true").map (fun e => e.target)
      = ["T"] ∧
    conditionFollowedEdges (outgoingEdges wfCond "cond") "true"
      ≠ claimedConditionSuccessors (outgoingEdges wfCond "cond") "true" ∧
    runCond.execution_log.map (fun e => e.node_id) = ["cond", "T", "U"] ∧
    runCond.executed = ["cond", "T", "U"] :=
  ⟨rfl, rfl, by decide, rfl, rfl⟩

/-- C7 counterexample: an input holding one valid finding line and one
non-JSON status line.  The claim predicts an error string for each
unparseable line, making errors non-empty; the code records an error only
for unparseable lines starting with an opening brace, so here errors is
empty while the valid line still produced its vulnerability and assets. -/
theorem c7_counterexample :
    (strTrim statusLine) ≠ "" ∧
    loadsModel (strTrim statusLine) = none ∧
    (nuclei_parse loadsModel (jsonFindingLine ++ "\n" ++ statusLine)).errors = [] ∧
    (nuclei_parse loadsModel (jsonFindingLine ++ "\n" ++ statusLine)).vulnerabilities.length
      = 1 ∧
    (nuclei_parse loadsModel (jsonFindingLine ++ "\n" ++ statusLine)).assets.length = 2 :=
  ⟨by decide, rfl, rfl, rfl, rfl⟩

/-- C2 counterexample: the condition "x != 5" in the empty context.  Its
left side resolves to null, yet evaluation yields true (None != 5 holds
in Python), refuting the claim that every condition with a null left side
evaluates to false. -/
theorem c2_counterexample :
    findOperator "x != 5" OPERATORS = some ("!=", "x ", " 5") ∧
    resolve_path [] "x" = PyVal.vnone ∧
    evaluate_condition [] "x != 5" = true :=
  ⟨rfl, rfl, rfl⟩

/-- C10 counterexample: the credential upsert guards on Python truthiness
before encrypting, so an empty plaintext is persisted as None (no value),
not as the empty string the claim describes. -/
theorem c10_counterexample :
    upsert_credential_plaintext fernetModel (some "") = none ∧
    upsert_credential_plaintext fernetModel (some "") ≠ some "" :=
  ⟨rfl, by decide⟩

/-- C9: the severity assigned by the CVSS-to-severity mapping is critical
for scores at least 9, high on [7, 9), medium on [4, 7), low on (0, 4)
and info otherwise: the sequential cut-off chain of the source equals the
two-sided interval table of the claim at every score. -/
theorem c9_cvss_severity_matches_cutoff_table (s : ℚ) :
    cvss_to_severity s = severity_cutoff_claim s := by
  unfold cvss_to_severity severity_cutoff_claim
  by_cases h9 : s ≥ 9
  · rw [if_pos h9, if_pos h9]
    rfl
  · rw [if_neg h9, if_neg h9]
    by_cases h7 : s ≥ 7
    · rw [if_pos h7, if_pos (show 7 ≤ s ∧ s < 9 from ⟨h7, lt_of_not_ge h9⟩)]
      rfl
    · rw [if_neg h7, if_neg (show ¬(7 ≤ s ∧ s < 9) from fun hh => h7 hh.1)]
      by_cases h4 : s ≥ 4
      · rw [if_pos h4, if_pos (show 4 ≤ s ∧ s < 7 from ⟨h4, lt_of_not_ge h7⟩)]
        rfl
      · rw [if_neg h4, if_neg (show ¬(4 ≤ s ∧ s < 7) from fun hh => h4 hh.1)]
        by_cases h0 : s > 0
        · rw [if_pos h0, if_pos (show 0 < s ∧ s < 4 from ⟨h0, lt_of_not_ge h4⟩)]
          rfl
        · rw [if_neg h0, if_neg (show ¬(0 < s ∧ s < 4) from fun hh => h0 hh.1)]
          rfl

/-- C3: when the tool runner returns normally with exit code e, the
executor sets exit_code = e and completed_at, transitions the job to
completed exactly when e = 0 and to failed with the exit-code error
message otherwise, and enqueues a parse task exactly when the job ended
completed and the tool declares a parser. -/
theorem c3_normal_exit_characterisation (j : JobRec) (hasParser : Bool) (e : Int) :
    (execute_tool_async j true hasParser (RunnerOutcome.normal e)).job.exit_code
      = some e ∧
    (execute_tool_async j true hasParser (RunnerOutcome.normal e)).job.completed_at_set
      = true ∧
    (execute_tool_async j true hasParser (RunnerOutcome.normal e)).job.status
      = (if e = 0 then JobStatus.completed else JobStatus.failed) ∧
    (execute_tool_async j true hasParser (RunnerOutcome.normal e)).job.error_message
      = (if e = 0 then j.error_message
         else some ("Tool exited with code " ++ toString e)) ∧
    ((execute_tool_async j true hasParser (RunnerOutcome.normal e)).parse_enqueued = true
      ↔ ((execute_tool_async j true hasParser (RunnerOutcome.normal e)).job.status
           = JobStatus.completed ∧ hasParser = true)) := by
  refine ⟨rfl, rfl, rfl, rfl, ?_⟩
  have hp : (execute_tool_async j true hasParser (RunnerOutcome.normal e)).parse_enqueued
      = (decide (e = 0) && hasParser) := rfl
  have hs : (execute_tool_async j true hasParser (RunnerOutcome.normal e)).job.status
      = (if e = 0 then JobStatus.completed else JobStatus.failed) := rfl
  rw [hp, hs]
  by_cases he : e = 0 <;> simp [he]

/-- C3 witness: the characterisation applied at exit code 2 with a parser
declared: the job ends failed with the exit-code message and no parse
task is enqueued. -/
theorem c3_normal_exit_witness :
    (execute_tool_async sampleJob true true (RunnerOutcome.normal 2)).job.status
      = JobStatus.failed ∧
    (execute_tool_async sampleJob true true (RunnerOutcome.normal 2)).job.error_message
      = some "Tool exited with code 2" ∧
    (execute_tool_async sampleJob true true (RunnerOutcome.normal 2)).parse_enqueued
      = false := by
  have h := c3_normal_exit_characterisation sampleJob true 2
  refine ⟨?_, ?_, ?_⟩
  · have h3 := h.2.2.1
    simpa using h3
  · have h4 := h.2.2.2.1
    simpa using h4
  · have h5 := h.2.2.2.2
    have h3 := h.2.2.1
    cases hpe : (execute_tool_async sampleJob true true (RunnerOutcome.normal 2)).parse_enqueued
    · rfl
    · exfalso
      have hc := (h5.mp hpe).1
      rw [h3] at hc
      simp at hc

/-- C10 amended: the encryption service maps the empty string to itself
in both directions without invoking the cipher, and round-trips every
string provided the Fernet collaborator inverts its own encryption and
produces nonempty tokens; an empty credential plaintext is never
encrypted — the upsert persists no value (None), not the empty string. -/
theorem c10_amended_empty_and_roundtrip (f : FernetLike)
    (hinv : ∀ s : String, s ≠ "" → f.decrypt_raw (f.encrypt_raw s) = s)
    (hne : ∀ s : String, s ≠ "" → f.encrypt_raw s ≠ "") :
    encrypt_service f "" = "" ∧
    decrypt_service f "" = "" ∧
    (∀ s : String, decrypt_service f (encrypt_service f s) = s) ∧
    upsert_credential_plaintext f (some "") = none ∧
    upsert_credential_plaintext f none = none := by
  refine ⟨rfl, rfl, ?_, rfl, rfl⟩
  intro s
  by_cases hs : s = ""
  · subst hs; rfl
  · unfold encrypt_service decrypt_service
    rw [if_neg hs, if_neg (hne s hs)]
    exact hinv s hs

/-- C10 witness: the amended statement applied to the concrete invertible
cipher model at a nonempty and at the empty plaintext. -/
theorem c10_amended_witness :
    decrypt_service fernetModel (encrypt_service fernetModel "hunter2") = "hunter2" ∧
    encrypt_service fernetModel "" = "" ∧
    decrypt_service fernetModel "" = "" ∧
    upsert_credential_plaintext fernetModel (some "") = none := by
  have hinv : ∀ s : String, s ≠ "" → fernetModel.decrypt_raw (fernetModel.encrypt_raw s) = s := by
    intro s _
    cases s
    rfl
  have hne : ∀ s : String, s ≠ "" → fernetModel.encrypt_raw s ≠ "" := by
    intro s _ hcon
    have hdata := congrArg String.data hcon
    simp [fernetModel] at hdata
  have h := c10_amended_empty_and_roundtrip fernetModel hinv hne
  exact ⟨h.2.2.1 "hunter2", h.1, h.2.1, h.2.2.2.1⟩

/-- Python equality against None on the left holds exactly for None. -/
theorem pyEq_vnone_left (v : PyVal) : pyEq PyVal.vnone v = true ↔ v = PyVal.vnone := by
  cases v <;> simp [pyEq, PyVal.asNum]

/-- Ordering with None on the left is undefined (TypeError) for every
right operand. -/
theorem pyOrder_vnone_left (v : PyVal) (op : CmpOp) :
    pyOrder PyVal.vnone v op = none := by
  cases v <;> rfl

/-- The four ordering operators on a None left operand compare to false. -/
theorem compare_values_vnone_ord (v : PyVal) :
    compare_values PyVal.vnone ">" v = false ∧
    compare_values PyVal.vnone "<" v = false ∧
    compare_values PyVal.vnone ">=" v = false ∧
    compare_values PyVal.vnone "<=" v = false := by
  cases v <;> exact ⟨rfl, rfl, rfl, rfl⟩

/-- C2 amended: for a condition that parses as lhs op rhs with a left
side resolving to null, evaluation never raises (the embedding is a total
boolean function) and yields false for the ordering operators and
contains; equality yields true exactly when the right side evaluates to
null, and inequality exactly when it does not. -/
theorem c2_amended_null_lhs (dat : List (String × PyVal)) (cond op l r : String)
    (hfind : findOperator (strTrim cond) OPERATORS = some (op, l, r))
    (hnull : resolve_path dat (strTrim l) = PyVal.vnone) :
    (op ∈ ([">", "<", ">=", "<=", " contains "] : List String) →
      evaluate_condition dat cond = false) ∧
    (op = "==" →
      (evaluate_condition dat cond = true ↔ rhsValue dat (strTrim r) = PyVal.vnone)) ∧
    (op = "!=" →
      (evaluate_condition dat cond = true ↔ rhsValue dat (strTrim r) ≠ PyVal.vnone)) := by
  have he : evaluate_condition dat cond
      = compare_values (resolve_path dat (strTrim l)) (strTrim op)
          (rhsValue dat (strTrim r)) := by
    unfold evaluate_condition
    simp only [hfind]
  rw [he, hnull]
  refine ⟨?_, ?_, ?_⟩
  · intro hop
    simp only [List.mem_cons, List.mem_singleton, List.not_mem_nil, or_false] at hop
    rcases hop with h | h | h | h | h <;> subst h
    · exact (compare_values_vnone_ord _).1
    · exact (compare_values_vnone_ord _).2.1
    · exact (compare_values_vnone_ord _).2.2.1
    · exact (compare_values_vnone_ord _).2.2.2
    · rfl
  · intro h
    subst h
    show pyEq PyVal.vnone _ = true ↔ _
    exact pyEq_vnone_left _
  · intro h
    subst h
    show (!(pyEq PyVal.vnone (rhsValue dat (strTrim r)))) = true ↔ _
    rw [Bool.not_eq_true']
    rw [← Bool.not_eq_true]
    exact not_congr (pyEq_vnone_left _)

/-- C2 witness: the amended statement applied to the condition "x > 5" in
the empty context, where the left side resolves to null and evaluation
yields false. -/
theorem c2_amended_witness :
    findOperator (strTrim "x > 5") OPERATORS = some (">", "x ", " 5") ∧
    resolve_path [] (strTrim "x ") = PyVal.vnone ∧
    evaluate_condition [] "x > 5" = false := by
  refine ⟨rfl, rfl, ?_⟩
  have h := c2_amended_null_lhs [] "x > 5" ">" "x " " 5" rfl rfl
  exact h.1 (by decide)

/-- C5 amended: after a condition node returns branch b, the engine
dispatches exactly the outgoing edges whose effective label equals b
together with every outgoing edge carrying no label — unlabelled edges
are always followed, not only when no edge matches.  The dispatch agrees
with the claim's description exactly when the node has no unlabelled
outgoing edge, and also when no outgoing edge carries the branch label. -/
theorem c5_amended_unlabelled_always_followed (edges : List WEdge) (b : String) :
    (∀ e, e ∈ conditionFollowedEdges edges b ↔
      (e ∈ edges ∧ (edgeLabel e = b ∨ edgeLabel e = ""))) ∧
    ((∀ e ∈ edges, edgeLabel e ≠ "") →
      conditionFollowedEdges edges b = claimedConditionSuccessors edges b) ∧
    ((∀ e ∈ edges, edgeLabel e ≠ b) →
      conditionFollowedEdges edges b = claimedConditionSuccessors edges b) := by
  refine ⟨?_, ?_, ?_⟩
  · intro e
    simp [conditionFollowedEdges, List.mem_filter]
  · intro h
    unfold conditionFollowedEdges claimedConditionSuccessors
    have hcode : edges.filter (fun e => edgeLabel e == b || edgeLabel e == "")
        = edges.filter (fun e => edgeLabel e == b) := by
      refine List.filter_congr ?_
      intro e he
      have hne : (edgeLabel e == "") = false := by
        simp [h e he]
      rw [hne, Bool.or_false]
    rw [hcode]
    by_cases hemp : (edges.filter (fun e => edgeLabel e == b)).isEmpty
    · rw [if_pos hemp]
      rw [List.isEmpty_iff.mp hemp]
      symm
      rw [List.filter_eq_nil_iff]
      intro e he
      simp [h e he]
    · rw [if_neg hemp]
  · intro h
    unfold conditionFollowedEdges claimedConditionSuccessors
    have hlab : edges.filter (fun e => edgeLabel e == b) = [] := by
      rw [List.filter_eq_nil_iff]
      intro e he
      simp [h e he]
    have hcode : edges.filter (fun e => edgeLabel e == b || edgeLabel e == "")
        = edges.filter (fun e => edgeLabel e == "") := by
      refine List.filter_congr ?_
      intro e he
      have hne : (edgeLabel e == b) = false := by
        simp [h e he]
      rw [hne, Bool.false_or]
    rw [hcode, hlab]
    simp

/-- C5 witness: the amended statement applied to a successor list whose
edges all carry labels, where the dispatch and the claim's description
coincide. -/
theorem c5_amended_witness :
    conditionFollowedEdges edgesTOnly "true"
      = claimedConditionSuccessors edgesTOnly "true" := by
  have h := c5_amended_unlabelled_always_followed edgesTOnly "true"
  exact h.2.1 (by decide)

/-- Lookup distributes over append, first list first. -/
theorem lookup_append (l1 l2 : List (String × PyVal)) (k : String) :
    (l1 ++ l2).lookup k
      = match l1.lookup k with
        | some v => some v
        | none => l2.lookup k := by
  induction l1 with
  | nil => simp [List.lookup]
  | cons p t ih =>
    obtain ⟨a, b⟩ := p
    cases hk : (k == a) with
    | true => simp [List.lookup_cons, hk]
    | false => simp [List.lookup_cons, hk, ih]

/-- Lookup over the patched left part of a dict merge: a key of the old
mapping resolves to the new value when the new mapping has it, and to its
old value otherwise; other keys are absent. -/
theorem lookup_map_patch (old new : List (String × PyVal)) (k : String) :
    ((old.map (fun p =>
        match new.lookup p.1 with
        | some v => (p.1, v)
        | none => p)).lookup k)
      = match old.lookup k, new.lookup k with
        | some _, some w => some w
        | some v, none => some v
        | none, _ => none := by
  induction old with
  | nil => rfl
  | cons p t ih =>
    obtain ⟨a, b⟩ := p
    cases hk : (k == a) with
    | true =>
      have hka : k = a := eq_of_beq hk
      subst hka
      cases hn : new.lookup k with
      | some w => simp [List.lookup_cons, hn]
      | none => simp [List.lookup_cons, hn]
    | false =>
      cases hn : new.lookup a with
      | some w => simp [List.lookup_cons, hk, hn, ih]
      | none => simp [List.lookup_cons, hk, hn, ih]

/-- Lookup over a filter whose predicate depends only on the key. -/
theorem lookup_filter_keys (new : List (String × PyVal)) (pred : String → Bool)
    (k : String) :
    ((new.filter (fun q => pred q.1)).lookup k)
      = if pred k then new.lookup k else none := by
  induction new with
  | nil => cases hp : pred k <;> simp [List.lookup, hp]
  | cons q t ih =>
    obtain ⟨a, b⟩ := q
    cases hpa : pred a with
    | true =>
      cases hk : (k == a) with
      | true =>
        have hka : k = a := eq_of_beq hk
        subst hka
        simp [List.filter_cons, hpa, List.lookup_cons, hpa]
      | false =>
        simp [List.filter_cons, hpa, List.lookup_cons, hk, ih]
    | false =>
      cases hk : (k == a) with
      | true =>
        have hka : k = a := eq_of_beq hk
        subst hka
        simp [List.filter_cons, hpa, List.lookup_cons, ih]
      | false =>
        simp [List.filter_cons, hpa, List.lookup_cons, hk, ih]

/-- A key is absent from a mapping exactly when no entry carries it. -/
theorem lookup_none_iff_no_key (old : List (String × PyVal)) (k : String) :
    old.lookup k = none ↔ old.any (fun p => p.1 == k) = false := by
  induction old with
  | nil => simp [List.lookup]
  | cons p t ih =>
    obtain ⟨a, b⟩ := p
    cases hk : (k == a) with
    | true =>
      have hka : k = a := eq_of_beq hk
      subst hka
      simp [List.lookup_cons]
    | false =>
      have hka : ¬(a = k) := by
        intro hh
        subst hh
        simp at hk
      simp [List.lookup_cons, hk, ih, hka]

/-- The double-splat merge looked up at any key: the right mapping wins,
the left fills in. -/
theorem dictMerge_lookup (old new : List (String × PyVal)) (k : String) :
    (dictMerge old new).lookup k
      = match new.lookup k with
        | some w => some w
        | none => old.lookup k := by
  unfold dictMerge
  rw [lookup_append, lookup_map_patch,
    lookup_filter_keys new (fun a => !(old.any (fun p => p.1 == a))) k]
  cases ho : old.lookup k with
  | some v =>
    have hany : old.any (fun p => p.1 == k) = true := by
      cases ha : old.any (fun p => p.1 == k) with
      | true => rfl
      | false =>
        rw [(lookup_none_iff_no_key old k).mpr ha] at ho
        cases ho
    cases hn : new.lookup k <;> simp [hany]
  | none =>
    have hany : old.any (fun p => p.1 == k) = false :=
      (lookup_none_iff_no_key old k).mp ho
    cases hn : new.lookup k <;> simp [hany]

/-- Membership in the tag union: deduplication changes no membership. -/
theorem mem_dedupTags (ts : List String) (t : String) :
    t ∈ dedupTags ts ↔ t ∈ ts := by
  suffices h : ∀ acc : List String,
      t ∈ ts.foldl (fun acc u => if acc.contains u then acc else acc ++ [u]) acc
        ↔ t ∈ acc ∨ t ∈ ts by
    simpa [dedupTags] using h []
  induction ts with
  | nil => intro acc; simp
  | cons x ts ih =>
    intro acc
    simp only [List.foldl_cons]
    by_cases hc : acc.contains x
    · rw [if_pos hc]
      rw [ih acc]
      have hx : x ∈ acc := by
        simpa using hc
      constructor
      · rintro (h | h)
        · exact Or.inl h
        · exact Or.inr (List.mem_cons_of_mem x h)
      · rintro (h | h)
        · exact Or.inl h
        · rcases List.mem_cons.mp h with h | h
          · subst h; exact Or.inl hx
          · exact Or.inr h
    · rw [if_neg hc]
      rw [ih (acc ++ [x])]
      simp [List.mem_append, List.mem_cons]
      tauto

/-- C8: upserting a parsed asset whose (project, type, value) already
exists merges: the tags become the union, the metadata the shallow merge
with the parsed values winning on key conflicts, the risk score the
maximum, while status, discoverer and identity are untouched and no row
is created; when no such asset exists, a new active row is inserted with
discovered_by set to the job. -/
theorem c8_upsert_asset_merge (store : List AssetRow) (pid jid : Nat)
    (pa : ParsedAssetM) :
    (∀ ex, findAsset store pid pa.type pa.value = some ex →
      (upsert_asset store pid jid pa).2.2 = false ∧
      (upsert_asset store pid jid pa).2.1.risk_score = max ex.risk_score pa.risk_score ∧
      (upsert_asset store pid jid pa).2.1.status = ex.status ∧
      (upsert_asset store pid jid pa).2.1.discovered_by = ex.discovered_by ∧
      (upsert_asset store pid jid pa).2.1.project_id = ex.project_id ∧
      (upsert_asset store pid jid pa).2.1.type = ex.type ∧
      (upsert_asset store pid jid pa).2.1.value = ex.value ∧
      (∀ t, t ∈ (upsert_asset store pid jid pa).2.1.tags
        ↔ (t ∈ ex.tags ∨ t ∈ pa.tags)) ∧
      (∀ k, (upsert_asset store pid jid pa).2.1.metadata.lookup k
        = match pa.metadata.lookup k with
          | some w => some w
          | none => ex.metadata.lookup k)) ∧
    (findAsset store pid pa.type pa.value = none →
      (upsert_asset store pid jid pa).2.2 = true ∧
      (upsert_asset store pid jid pa).1 = store ++ [(upsert_asset store pid jid pa).2.1] ∧
      (upsert_asset store pid jid pa).2.1 =
        { project_id := pid, type := pa.type, value := pa.value
          metadata := pa.metadata, tags := pa.tags, risk_score := pa.risk_score
          status := "active", discovered_by := some jid }) := by
  constructor
  · intro ex hfind
    have hu : (upsert_asset store pid jid pa).2
        = ({ ex with
              metadata := dictMerge ex.metadata pa.metadata
              tags := dedupTags (ex.tags ++ pa.tags)
              risk_score := max ex.risk_score pa.risk_score }, false) := by
      simp only [upsert_asset, hfind]
    rw [hu]
    refine ⟨rfl, rfl, rfl, rfl, rfl, rfl, rfl, ?_, ?_⟩
    · intro t
      show t ∈ dedupTags (ex.tags ++ pa.tags) ↔ _
      rw [mem_dedupTags]
      simp [List.mem_append]
    · intro k
      exact dictMerge_lookup ex.metadata pa.metadata k
  · intro hfind
    have hu : upsert_asset store pid jid pa
        = (store ++
            [{ project_id := pid, type := pa.type, value := pa.value
               metadata := pa.metadata, tags := pa.tags, risk_score := pa.risk_score
               status := "active", discovered_by := some jid }],
           { project_id := pid, type := pa.type, value := pa.value
             metadata := pa.metadata, tags := pa.tags, risk_score := pa.risk_score
             status := "active", discovered_by := some jid }, true) := by
      simp only [upsert_asset, hfind]
    rw [hu]
    exact ⟨rfl, rfl, rfl⟩

/-- C8 witness: the merge statement applied to a concrete store at a
matching and at a fresh parsed asset. -/
theorem c8_upsert_asset_witness :
    (upsert_asset [assetRow1] 1 9 parsedAsset1).2.2 = false ∧
    (upsert_asset [assetRow1] 1 9 parsedAsset1).2.1.risk_score = 20 ∧
    (upsert_asset [assetRow1] 1 9 parsedAsset1).2.1.status = "archived" ∧
    ("nuclei" ∈ (upsert_asset [assetRow1] 1 9 parsedAsset1).2.1.tags) ∧
    ((upsert_asset [assetRow1] 1 9 parsedAsset1).2.1.metadata.lookup "ttl"
      = some (PyVal.vint 128)) ∧
    (upsert_asset [assetRow1] 1 9 parsedAsset2).2.2 = true ∧
    (upsert_asset [assetRow1] 1 9 parsedAsset2).2.1.discovered_by = some 9 := by
  have h1 := (c8_upsert_asset_merge [assetRow1] 1 9 parsedAsset1).1 assetRow1 rfl
  have h2 := (c8_upsert_asset_merge [assetRow1] 1 9 parsedAsset2).2 rfl
  refine ⟨h1.1, ?_, ?_, ?_, ?_, h2.1, ?_⟩
  · rw [h1.2.1]
    rfl
  · rw [h1.2.2.1]
    rfl
  · exact (h1.2.2.2.2.2.2.2.1 "nuclei").mpr (Or.inr (by decide))
  · rw [h1.2.2.2.2.2.2.2.2 "ttl"]
    rfl
  · rw [h2.2.2]

/-- One finding call: errors on the shared result are untouched, the
returned exception is the state-independent one, and exactly one
vulnerability is appended when the finding processes to completion. -/
theorem processFinding_spec (st : ParseState) (v : PyVal) :
    (processFinding st v).1.errors = st.errors ∧
    (processFinding st v).2 = findingExc v ∧
    (processFinding st v).1.vulnerabilities.length
      = st.vulnerabilities.length +
        (match (findingOut v).outcome with
         | some (Except.ok _) => 1
         | _ => 0) := by
  unfold processFinding findingExc
  cases ho : (findingOut v).outcome with
  | none => simp [ho]
  | some r =>
    cases r with
    | ok w =>
      simp only [ho]
      split <;> simp
    | error m =>
      simp only [ho]
      split <;> simp

/-- One line of the parse loop: the errors grow by exactly the line's
error contribution and the vulnerability count by exactly the line's
vulnerability contribution; in particular no line affects another. -/
theorem processLine_spec (loads : String → Option PyVal) (st : ParseState) (l : String) :
    (processLine loads st l).errors = st.errors ++ lineErrors loads l ∧
    (processLine loads st l).vulnerabilities.length
      = st.vulnerabilities.length + lineVulnCount loads l := by
  unfold processLine lineErrors lineVulnCount
  by_cases hb : strTrim l = ""
  · simp [hb]
  · rw [if_neg hb, if_neg hb, if_neg hb]
    cases hl : loads (strTrim l) with
    | none =>
      by_cases hbr : strStartsWith (strTrim l) (String.singleton lbrace) = true
      · simp [hbr]
      · simp [hbr]
    | some v =>
      obtain ⟨e1, e2, e3⟩ := processFinding_spec st v
      rcases hpv : processFinding st v with ⟨st1, exc⟩
      rw [hpv] at e1 e2 e3
      simp only at e1 e2 e3
      cases ho : (findingOut v).outcome with
      | none =>
        have hex : findingExc v = none := by simp [findingExc, ho]
        rw [hex] at e2
        subst e2
        rw [ho] at e3
        simp [hpv, hex, e1, e3, ho]
      | some r =>
        cases r with
        | ok w =>
          have hex : findingExc v = none := by simp [findingExc, ho]
          rw [hex] at e2
          subst e2
          rw [ho] at e3
          simp [hpv, hex, e1, e3, ho]
        | error m =>
          have hex : findingExc v = some m := by simp [findingExc, ho]
          rw [hex] at e2
          subst e2
          rw [ho] at e3
          simp [hpv, hex, e1, e3, ho]

/-- The parse loop folded over the lines: errors and vulnerability counts
are the concatenation and the sum of the per-line contributions. -/
theorem foldl_processLine_spec (loads : String → Option PyVal)
    (lines : List String) (st : ParseState) :
    ((lines.foldl (processLine loads) st).errors
      = st.errors ++ (lines.map (lineErrors loads)).flatten) ∧
    ((lines.foldl (processLine loads) st).vulnerabilities.length
      = st.vulnerabilities.length + (lines.map (lineVulnCount loads)).sum) := by
  induction lines generalizing st with
  | nil => simp
  | cons l ls ih =>
    obtain ⟨e1, e2⟩ := processLine_spec loads st l
    obtain ⟨i1, i2⟩ := ih (processLine loads st l)
    constructor
    · rw [List.foldl_cons, i1, e1]
      simp
    · rw [List.foldl_cons, i2, e2]
      simp [Nat.add_assoc]

/-- C7 amended: the parser never aborts and treats every line
independently: ParseOutput.errors is exactly the concatenation of the
per-line error contributions — an unparseable line contributes an error
exactly when it starts with an opening brace, so plain-text garbage is
skipped silently — and the vulnerabilities are exactly one per line whose
JSON decodes to a finding object with a truthy target, whatever the other
lines contain. -/
theorem c7_amended_per_line (loads : String → Option PyVal) (output : String) :
    (nuclei_parse loads output).errors
      = ((strSplitOn output "\n").map (lineErrors loads)).flatten ∧
    (nuclei_parse loads output).vulnerabilities.length
      = ((strSplitOn output "\n").map (lineVulnCount loads)).sum := by
  have h := foldl_processLine_spec loads (strSplitOn output "\n") emptyParseState
  unfold nuclei_parse
  constructor
  · rw [h.1]
    simp [emptyParseState]
  · rw [h.2]
    simp [emptyParseState]

end KaliWeb
